import Mathlib

/-!
Shallow embedding of the RoguelikeDev_2024 dungeon-crawler core
(src/components/fighter.py, equipment.py, equippable.py, inventory.py,
level.py, ai.py, consumable.py, src/entity.py, game_map.py, actions.py,
procgen.py, exceptions.py, render_order.py, equipment_types.py).

Modelling conventions:
* Python ints are Lean `Int` (arbitrary precision in both).
* Python object identity is modelled by an `eid : Nat` field on every
  entity; the engine addresses entities through their eid.
* Euclidean distances (`math.sqrt`) are compared through their squares:
  all comparisons in the source are between square roots of integers
  (or against the exact float `maximum_range + 1.0`), and `Real.sqrt`
  is strictly monotone on nonnegative integers, so `sqrt a < sqrt b ↔
  a < b` and `sqrt a ≤ r ↔ a ≤ r^2` for `0 ≤ r`.  Game-sized values are
  far below any double rounding boundary.
* `random.choice` / `random.randint` / `random.random` draws, the
  external `tcod.path` pathfinder and `tcod.los.bresenham`, and
  `place_entities` (whose entity templates live in entity_factories.py,
  a file not part of the core sources) are inputs (oracles) to the
  embedded functions.
* The message log is modelled by the number of `add_message` calls.
* Cosmetic fields never read by game logic (char, color, name strings)
  are omitted from the entity model.
-/

namespace Rogue

/-- render_order.py: RenderOrder enum (ascending importance). -/
inductive RenderOrder where
  | CORPSE
  | ITEM
  | ACTOR
deriving DecidableEq, Repr

/-- equipment_types.py: EquipmentType enum. -/
inductive EquipmentType where
  | WEAPON
  | ARMOR
deriving DecidableEq, Repr

/-- components/equippable.py: Equippable component data. -/
structure Equippable where
  equipment_type : EquipmentType
  power_bonus : Int
  defense_bonus : Int
deriving DecidableEq, Repr

/-- components/consumable.py: the four Consumable variants and their
constructor parameters. -/
inductive Consumable where
  | healing (amount : Int)
  | confusion (number_of_turns : Int)
  | lightning (damage : Int) (maximum_range : Int)
  | fireball (damage : Int) (radius : Int)
deriving DecidableEq, Repr

/-- components/fighter.py: Fighter component state (`_hp` backing field
of the `hp` property is the `hp` field here). -/
structure Fighter where
  max_hp : Int
  hp : Int
  base_defense : Int
  base_power : Int
deriving DecidableEq, Repr

/-- Fighter.__init__(hp, base_defense, base_power): max_hp and _hp both
start at `hp`. -/
def Fighter.init (hp base_defense base_power : Int) : Fighter :=
  ⟨hp, hp, base_defense, base_power⟩

/-- The clamped value written by the hp setter:
`self._hp = max(0, min(value, self.max_hp))`. -/
def Fighter.clamped (f : Fighter) (value : Int) : Int :=
  max 0 (min value f.max_hp)

/-- The pure part of the hp setter (the death trigger lives at the
engine level, see `Engine.set_hp`; it never changes hp itself). -/
def Fighter.setHp (f : Fighter) (value : Int) : Fighter :=
  { f with hp := f.clamped value }

/-- Fighter.heal: returns the updated fighter and `amount_recovered`. -/
def Fighter.heal (f : Fighter) (amount : Int) : Fighter × Int :=
  if f.hp = f.max_hp then (f, 0)
  else
    let new_hp_value := min (f.hp + amount) f.max_hp
    let amount_recovered := new_hp_value - f.hp
    (f.setHp new_hp_value, amount_recovered)

/-- Fighter.take_damage: `self.hp -= amount` through the setter. -/
def Fighter.take_damage (f : Fighter) (amount : Int) : Fighter :=
  f.setHp (f.hp - amount)

/-- One call against a Fighter: heal, take_damage, or a direct write
through the hp setter. -/
inductive FighterCall where
  | heal (amount : Int)
  | take_damage (amount : Int)
  | set_hp (value : Int)

/-- Apply one call to a Fighter (hp-relevant effect only). -/
def Fighter.applyCall (f : Fighter) : FighterCall → Fighter
  | .heal amount => (f.heal amount).1
  | .take_damage amount => f.take_damage amount
  | .set_hp value => f.setHp value

/-- Apply a finite sequence of calls in order. -/
def Fighter.runCalls (f : Fighter) (calls : List FighterCall) : Fighter :=
  calls.foldl Fighter.applyCall f

/-- components/inventory.py + entity.py Item: an Item entity.  Items
never block movement and render as ITEM; stale x/y are kept while the
item is carried, exactly as in the source. -/
structure ItemE where
  eid : Nat
  x : Int
  y : Int
  blocks_movement : Bool
  render_order : RenderOrder
  consumable : Option Consumable
  equippable : Option Equippable
deriving DecidableEq, Repr

/-- components/equipment.py: the two slots, each `Item | None`. -/
structure Equipment where
  weapon : Option ItemE
  armor : Option ItemE
deriving DecidableEq, Repr

/-- Equipment.defense_bonus.  NOTE: this transcribes the source exactly:
equipment.py line 37 adds `self.armor.equippable.power_bonus` (not the
armor's defense_bonus) into the defense total. -/
def Equipment.defense_bonus (e : Equipment) : Int :=
  (match e.weapon with
   | some w =>
     match w.equippable with
     | some q => q.defense_bonus
     | none => 0
   | none => 0) +
  (match e.armor with
   | some a =>
     match a.equippable with
     | some q => q.power_bonus
     | none => 0
   | none => 0)

/-- Equipment.power_bonus: weapon power bonus plus armor power bonus. -/
def Equipment.power_bonus (e : Equipment) : Int :=
  (match e.weapon with
   | some w =>
     match w.equippable with
     | some q => q.power_bonus
     | none => 0
   | none => 0) +
  (match e.armor with
   | some a =>
     match a.equippable with
     | some q => q.power_bonus
     | none => 0
   | none => 0)

/-- Equipment.item_is_equipped (identity comparison, i.e. by eid). -/
def Equipment.item_is_equipped (e : Equipment) (item_eid : Nat) : Bool :=
  (match e.weapon with
   | some w => w.eid == item_eid
   | none => false) ||
  (match e.armor with
   | some a => a.eid == item_eid
   | none => false)

/-- components/level.py: Level component state. -/
structure Level where
  current_level : Int
  current_xp : Int
  level_up_base : Int
  level_up_factor : Int
  xp_given : Int
deriving DecidableEq, Repr

/-- Level.experience_to_next_level. -/
def Level.experience_to_next_level (l : Level) : Int :=
  l.level_up_base + l.current_level * l.level_up_factor

/-- Level.requires_level_up. -/
def Level.requires_level_up (l : Level) : Bool :=
  l.current_xp > l.experience_to_next_level

/-- components/ai.py: the AI variants.  A HostileEnemy carries its
retained `self.path`; a ConfusedEnemy wraps the previous AI and a turn
counter. -/
inductive AI where
  | hostile (path : List (Int × Int))
  | confused (previous : Option AI) (turns_remaining : Int)

/-- entity.py Actor: an Actor entity with its components.  Actors are
constructed with blocks_movement=True and render_order=ACTOR; those
fields are mutated by Fighter.die. -/
structure ActorE where
  eid : Nat
  x : Int
  y : Int
  blocks_movement : Bool
  render_order : RenderOrder
  ai : Option AI
  fighter : Fighter
  equipment : Equipment
  capacity : Int
  inventory : List ItemE
  level : Level

/-- Actor.is_alive: `bool(self.ai)`. -/
def ActorE.is_alive (a : ActorE) : Bool :=
  a.ai.isSome

/-- Fighter.defense: base_defense plus the equipment defense bonus (the
Actor's equipment component is always present and always truthy). -/
def ActorE.defense (a : ActorE) : Int :=
  a.fighter.base_defense + a.equipment.defense_bonus

/-- Fighter.power: base_power plus the equipment power bonus. -/
def ActorE.power (a : ActorE) : Int :=
  a.fighter.base_power + a.equipment.power_bonus

/-- entity.py: an Entity on a map is an Actor or an Item. -/
inductive Entity where
  | actor (a : ActorE)
  | item (i : ItemE)

def Entity.eid : Entity → Nat
  | .actor a => a.eid
  | .item i => i.eid

def Entity.x : Entity → Int
  | .actor a => a.x
  | .item i => i.x

def Entity.y : Entity → Int
  | .actor a => a.y
  | .item i => i.y

def Entity.blocks_movement : Entity → Bool
  | .actor a => a.blocks_movement
  | .item i => i.blocks_movement

/-- Entity.distance squared: the source computes
`sqrt((x - self.x)**2 + (y - self.y)**2)`; we carry the radicand. -/
def dist2 (x1 y1 x2 y2 : Int) : Int :=
  (x2 - x1) ^ 2 + (y2 - y1) ^ 2

/-- tile_types.py: the three tile templates used by the generator. -/
inductive Tile where
  | wall
  | floor
  | down_stairs
deriving DecidableEq, Repr

/-- tiles["walkable"]: floor and down_stairs are walkable, wall is not. -/
def Tile.walkable : Tile → Bool
  | .wall => false
  | _ => true

/-- game_map.py GameMap state.  Tiles and the visibility bitset are
total functions on coordinates (numpy arrays in the source; every index
used by the core is first bounds-checked or produced in range).  The
`explored` bitset is never read by the embedded operations and is
omitted. -/
structure GameMap where
  width : Nat
  height : Nat
  tiles : Int → Int → Tile
  visible : Int → Int → Bool
  entities : List Entity
  downstairs_location : Int × Int

/-- GameMap.in_bounds. -/
def GameMap.in_bounds (m : GameMap) (x y : Int) : Bool :=
  decide (0 ≤ x ∧ x < (m.width : Int) ∧ 0 ≤ y ∧ y < (m.height : Int))

/-- GameMap.actors: the map's living actors, in entity-set iteration
order (modelled by the list order). -/
def GameMap.actorsList (m : GameMap) : List ActorE :=
  m.entities.filterMap fun e =>
    match e with
    | .actor a => if a.is_alive then some a else none
    | .item _ => none

/-- GameMap.get_actor_at_location: first living actor at (x, y). -/
def GameMap.get_actor_at_location (m : GameMap) (x y : Int) : Option ActorE :=
  m.actorsList.find? fun a => a.x == x && a.y == y

/-- GameMap.get_blocking_entity_at_location: first entity that blocks
movement at (x, y). -/
def GameMap.get_blocking_entity_at_location (m : GameMap) (x y : Int) :
    Option Entity :=
  m.entities.find? fun e => e.blocks_movement && e.x == x && e.y == y

/-- engine.py Engine together with the game_map.py GameWorld settings it
owns.  `player_eid` models `self.player` (the player object reference);
`log` counts MessageLog.add_message calls. -/
structure Engine where
  game_map : GameMap
  player_eid : Nat
  log : Nat
  current_floor : Nat
  max_rooms : Nat
  room_min_size : Nat
  room_max_size : Nat
  map_width : Nat
  map_height : Nat

/-- Dereference an actor object by eid in an entity list (first match,
as the reference is unique in every real game state). -/
def findActorL : List Entity → Nat → Option ActorE
  | [], _ => none
  | .actor a :: rest, eid =>
    if a.eid = eid then some a else findActorL rest eid
  | .item _ :: rest, eid => findActorL rest eid

/-- In-place mutation of the actor object with the given eid. -/
def modifyEnts : List Entity → Nat → (ActorE → ActorE) → List Entity
  | [], _, _ => []
  | .actor a :: rest, eid, f =>
    (if a.eid = eid then Entity.actor (f a) else Entity.actor a) ::
      modifyEnts rest eid f
  | .item i :: rest, eid, f => .item i :: modifyEnts rest eid f

/-- Look an actor up by eid (object-reference dereference). -/
def Engine.findActor (en : Engine) (eid : Nat) : Option ActorE :=
  findActorL en.game_map.entities eid

/-- `self.engine.player`. -/
def Engine.player? (en : Engine) : Option ActorE :=
  en.findActor en.player_eid

/-- MessageLog.add_message (count of calls; stacking only merges equal
texts into a repeat counter and does not change the call count). -/
def Engine.add_message (en : Engine) : Engine :=
  { en with log := en.log + 1 }

/-- Apply a function to the actor with the given eid (in-place mutation
of the referenced object). -/
def Engine.modifyActor (en : Engine) (eid : Nat) (f : ActorE → ActorE) :
    Engine :=
  { en with
    game_map := { en.game_map with
      entities := modifyEnts en.game_map.entities eid f } }

/-- Level.add_xp, invoked on the player (Fighter.die does
`self.engine.player.level.add_xp(...)`). -/
def Engine.player_add_xp (en : Engine) (xp : Int) : Engine :=
  match en.player? with
  | none => en
  | some p =>
    if xp = 0 ∨ p.level.level_up_base = 0 then en
    else
      let newLevel := { p.level with current_xp := p.level.current_xp + xp }
      let en1 := en.modifyActor p.eid fun b =>
        { b with level := { b.level with current_xp := b.level.current_xp + xp } }
      let en2 := en1.add_message
      if newLevel.requires_level_up then en2.add_message else en2

/-- Fighter.die: death message, corpse fields, xp award.  The cosmetic
char/color/name mutations are omitted (never read by game logic). -/
def Engine.die (en : Engine) (eid : Nat) : Engine :=
  match en.findActor eid with
  | none => en
  | some a =>
    let en1 := en.modifyActor eid fun b =>
      { b with blocks_movement := false, ai := none,
               render_order := RenderOrder.CORPSE }
    let en2 := en1.add_message
    en2.player_add_xp a.level.xp_given

/-- The hp property setter: clamp, then trigger die exactly when the
clamped value is 0 and the owning actor still has an AI. -/
def Engine.set_hp (en : Engine) (eid : Nat) (value : Int) : Engine :=
  match en.findActor eid with
  | none => en
  | some a =>
    let en1 := en.modifyActor eid fun b =>
      { b with fighter := b.fighter.setHp value }
    if a.fighter.clamped value = 0 ∧ a.ai.isSome then en1.die eid else en1

/-- Fighter.take_damage through the engine (`self.hp -= amount`). -/
def Engine.take_damage (en : Engine) (eid : Nat) (amount : Int) : Engine :=
  match en.findActor eid with
  | none => en
  | some a => en.set_hp eid (a.fighter.hp - amount)

/-- Fighter.heal through the engine; also returns amount_recovered. -/
def Engine.heal (en : Engine) (eid : Nat) (amount : Int) : Engine × Int :=
  match en.findActor eid with
  | none => (en, 0)
  | some a =>
    if a.fighter.hp = a.fighter.max_hp then (en, 0)
    else
      let new_hp_value := min (a.fighter.hp + amount) a.fighter.max_hp
      (en.set_hp eid new_hp_value, new_hp_value - a.fighter.hp)

/-- Reassign `actor.ai` (used by ConfusedEnemy.perform, HostileEnemy's
path retention and ConfusionConsumable.activate). -/
def Engine.setAI (en : Engine) (eid : Nat) (v : Option AI) : Engine :=
  en.modifyActor eid fun b => { b with ai := v }

/-- Remove the first inventory item with the given eid
(`inventory.items.remove(entity)`: first occurrence, identity
equality). -/
def eraseFirstEid : List ItemE → Nat → List ItemE
  | [], _ => []
  | it :: rest, eid =>
    if it.eid = eid then rest else it :: eraseFirstEid rest eid

/-- Consumable.consume: remove the item from its containing
inventory. -/
def Engine.consumeItem (en : Engine) (aeid item_eid : Nat) : Engine :=
  en.modifyActor aeid fun b =>
    { b with inventory := eraseFirstEid b.inventory item_eid }

/-- The result of one Action.perform: the engine afterwards, plus the
Impossible reason when one was raised.  Mutations made before a raise
persist (Python exception semantics). -/
structure StepResult where
  engine : Engine
  err : Option String

/-- MeleeAction.perform.  The acting Action object holds a live Actor
reference; an unresolvable eid (impossible in the source, where the
reference is direct) is a no-op. -/
def meleePerform (en : Engine) (aeid : Nat) (dx dy : Int) : StepResult :=
  match en.findActor aeid with
  | none => ⟨en, none⟩
  | some att =>
    match en.game_map.get_actor_at_location (att.x + dx) (att.y + dy) with
    | none => ⟨en, some "Nothing to attack"⟩
    | some target =>
      let damage := att.power - target.defense
      if damage > 0 then
        let en1 := en.add_message
        ⟨en1.set_hp target.eid (target.fighter.hp - damage), none⟩
      else
        ⟨en.add_message, none⟩

/-- MovementAction.perform. -/
def movementPerform (en : Engine) (aeid : Nat) (dx dy : Int) : StepResult :=
  match en.findActor aeid with
  | none => ⟨en, none⟩
  | some a =>
    let dest_x := a.x + dx
    let dest_y := a.y + dy
    if ¬ en.game_map.in_bounds dest_x dest_y then
      ⟨en, some "That way is blocked."⟩
    else if ¬ (en.game_map.tiles dest_x dest_y).walkable then
      ⟨en, some "That way is blocked."⟩
    else if (en.game_map.get_blocking_entity_at_location dest_x dest_y).isSome then
      ⟨en, some "That way is blocked."⟩
    else
      ⟨en.modifyActor aeid (fun b => { b with x := b.x + dx, y := b.y + dy }),
       none⟩

/-- BumpAction.perform. -/
def bumpPerform (en : Engine) (aeid : Nat) (dx dy : Int) : StepResult :=
  match en.findActor aeid with
  | none => ⟨en, none⟩
  | some a =>
    if (en.game_map.get_actor_at_location (a.x + dx) (a.y + dy)).isSome then
      meleePerform en aeid dx dy
    else
      movementPerform en aeid dx dy

/-- The `for item in self.engine.game_map.items` scan of
PickupAction.perform: position (in the full entity list) and value of
the first Item sharing the given coordinates. -/
def findCoItem : List Entity → Int → Int → Option (Nat × ItemE)
  | [], _, _ => none
  | .item it :: rest, x, y =>
    if it.x = x ∧ it.y = y then some (0, it)
    else (findCoItem rest x y).map fun p => (p.1 + 1, p.2)
  | .actor _ :: rest, x, y =>
    (findCoItem rest x y).map fun p => (p.1 + 1, p.2)

/-- PickupAction.perform. -/
def pickupPerform (en : Engine) (aeid : Nat) : StepResult :=
  match en.findActor aeid with
  | none => ⟨en, none⟩
  | some a =>
    match findCoItem en.game_map.entities a.x a.y with
    | none => ⟨en, some "There is nothing here to pick up."⟩
    | some (i, it) =>
      if (a.inventory.length : Int) ≥ a.capacity then
        ⟨en, some "Your inventory is full."⟩
      else
        let en1 := { en with
          game_map := { en.game_map with
            entities := en.game_map.entities.eraseIdx i } }
        let en2 := en1.modifyActor aeid fun b =>
          { b with inventory := b.inventory ++ [it] }
        ⟨en2.add_message, none⟩

/-- procgen.py RectangularRoom. -/
structure RectangularRoom where
  x1 : Int
  y1 : Int
  x2 : Int
  y2 : Int
deriving DecidableEq, Repr

/-- RectangularRoom.__init__(x, y, width, height). -/
def RectangularRoom.make (x y width height : Int) : RectangularRoom :=
  ⟨x, y, x + width, y + height⟩

/-- RectangularRoom.center: `int((x1+x2)/2)` truncates toward zero, as
does `Int.div`. -/
def RectangularRoom.center (r : RectangularRoom) : Int × Int :=
  (Int.tdiv (r.x1 + r.x2) 2, Int.tdiv (r.y1 + r.y2) 2)

/-- RectangularRoom.intersects (inclusive bounding-box test). -/
def RectangularRoom.intersects (r o : RectangularRoom) : Bool :=
  decide (r.x1 ≤ o.x2 ∧ r.x2 ≥ o.x1 ∧ r.y1 ≤ o.y2 ∧ r.y2 ≥ o.y1)

/-- `dungeon.tiles[new_room.inner] = tile_types.floor`: carve the
interior slice (slice(x1+1, x2) × slice(y1+1, y2); indices produced by
the generator are nonnegative, so numpy wrapping never occurs). -/
def carveRoom (tiles : Int → Int → Tile) (r : RectangularRoom) :
    Int → Int → Tile :=
  fun x y =>
    if r.x1 + 1 ≤ x ∧ x < r.x2 ∧ r.y1 + 1 ≤ y ∧ y < r.y2 then Tile.floor
    else tiles x y

/-- Write one tile. -/
def setTile (tiles : Int → Int → Tile) (p : Int × Int) (t : Tile) :
    Int → Int → Tile :=
  fun x y => if x = p.1 ∧ y = p.2 then t else tiles x y

/-- tunnel_between, given the elbow coin (`random.random() < 0.5`) and
the rasterized-line oracle standing for the external
tcod.los.bresenham. -/
def tunnelPoints (bres : Int × Int → Int × Int → List (Int × Int))
    (coin : Bool) (start finish : Int × Int) : List (Int × Int) :=
  let corner := if coin then (finish.1, start.2) else (start.1, finish.2)
  bres start corner ++ bres corner finish

/-- Carve every tunnel point to floor. -/
def carveTunnel (tiles : Int → Int → Tile) (pts : List (Int × Int)) :
    Int → Int → Tile :=
  pts.foldl (fun t p => setTile t p Tile.floor) tiles

/-- One iteration's random draws in generate_dungeon: the four randint
results, the tunnel elbow coin, and the place_entities oracle.
place_entities only spawns fresh entity clones into dungeon.entities
(templates live in entity_factories.py, outside the core sources; its
randomness is folded into the oracle), so it is modelled as the list of
entities it appends, computed from the accepted room and the entity set
it reads for position collisions. -/
structure CandidateDraw where
  room_width : Int
  room_height : Int
  x : Int
  y : Int
  coin : Bool
  ents : RectangularRoom → List Entity → List Entity

/-- `player.place(*new_room.center, dungeon)` for the first accepted
room: the player is already in the new dungeon's entity set, so only
its coordinates change. -/
def placePlayer (es : List Entity) (player_eid : Nat) (c : Int × Int) :
    List Entity :=
  modifyEnts es player_eid fun a => { a with x := c.1, y := c.2 }

/-- The body of generate_dungeon's `for _ in range(max_rooms)` loop,
consuming one CandidateDraw per iteration. -/
def genLoop (bres : Int × Int → Int × Int → List (Int × Int))
    (player_eid : Nat) :
    List CandidateDraw → GameMap → List RectangularRoom →
    GameMap × List RectangularRoom
  | [], dungeon, rooms => (dungeon, rooms)
  | d :: rest, dungeon, rooms =>
    let new_room := RectangularRoom.make d.x d.y d.room_width d.room_height
    if rooms.any (fun other => new_room.intersects other) then
      genLoop bres player_eid rest dungeon rooms
    else
      let dungeon1 := { dungeon with tiles := carveRoom dungeon.tiles new_room }
      let dungeon2 := { dungeon1 with
        entities := dungeon1.entities ++ d.ents new_room dungeon1.entities }
      let dungeon3 :=
        match rooms.getLast? with
        | none =>
          { dungeon2 with
            entities := placePlayer dungeon2.entities player_eid new_room.center }
        | some prev =>
          { dungeon2 with
            tiles := carveTunnel dungeon2.tiles
              (tunnelPoints bres d.coin prev.center new_room.center) }
      let c := new_room.center
      let dungeon4 := { dungeon3 with
        tiles := setTile dungeon3.tiles c Tile.down_stairs,
        downstairs_location := c }
      genLoop bres player_eid rest dungeon4 (rooms ++ [new_room])

/-- procgen.generate_dungeon: all-wall map holding only the player,
then the candidate-room loop. -/
def generate_dungeon (max_rooms : Nat) (map_width map_height : Nat)
    (player : Entity) (player_eid : Nat)
    (bres : Int × Int → Int × Int → List (Int × Int))
    (draws : List CandidateDraw) : GameMap :=
  let dungeon : GameMap :=
    { width := map_width, height := map_height,
      tiles := fun _ _ => Tile.wall,
      visible := fun _ _ => false,
      entities := [player],
      downstairs_location := (0, 0) }
  (genLoop bres player_eid (draws.take max_rooms) dungeon []).1

/-- GameWorld.generate_floor: advance current_floor and replace the
engine's map with a freshly generated dungeon. -/
def Engine.generate_floor (en : Engine)
    (bres : Int × Int → Int × Int → List (Int × Int))
    (draws : List CandidateDraw) : Engine :=
  match en.player? with
  | none => en
  | some p =>
    { en with
      current_floor := en.current_floor + 1,
      game_map := generate_dungeon en.max_rooms en.map_width en.map_height
        (.actor p) en.player_eid bres draws }

/-- TakeStairsAction.perform. -/
def takeStairsPerform (en : Engine) (aeid : Nat)
    (bres : Int × Int → Int × Int → List (Int × Int))
    (draws : List CandidateDraw) : StepResult :=
  match en.findActor aeid with
  | none => ⟨en, none⟩
  | some a =>
    if (a.x, a.y) = en.game_map.downstairs_location then
      let en1 := en.generate_floor bres draws
      ⟨en1.add_message, none⟩
    else
      ⟨en, some "There are no stairs here."⟩

/-- HealingConsumable.activate. -/
def healingActivate (en : Engine) (consumer : ActorE) (item_eid : Nat)
    (amount : Int) : StepResult :=
  let healed := en.heal consumer.eid amount
  if healed.2 > 0 then
    let en1 := healed.1.add_message
    ⟨en1.consumeItem consumer.eid item_eid, none⟩
  else
    ⟨healed.1, some "Your health is already full."⟩

/-- One step of the nearest-target scan of
LightningDamageConsumable.activate.  The accumulator carries the
current target and the square of closest_distance (initially
`maximum_range + 1.0`); every comparison in the source is between
square roots of integers, so comparing the squares is exact (for
`maximum_range ≥ -1`, which covers every constructed consumable). -/
def lightningStep (m : GameMap) (cx cy : Int) (consumer_eid : Nat)
    (acc : Option ActorE × Int) (actor : ActorE) : Option ActorE × Int :=
  if actor.eid ≠ consumer_eid ∧ m.visible actor.x actor.y then
    let d2 := dist2 cx cy actor.x actor.y
    if d2 < acc.2 then (some actor, d2) else acc
  else acc

/-- The nearest-target scan of LightningDamageConsumable.activate. -/
def lightningSelect (m : GameMap) (cx cy : Int) (consumer_eid : Nat)
    (maximum_range : Int) : Option ActorE × Int :=
  m.actorsList.foldl (lightningStep m cx cy consumer_eid)
    (none, (maximum_range + 1) ^ 2)

/-- LightningDamageConsumable.activate. -/
def lightningActivate (en : Engine) (consumer : ActorE) (item_eid : Nat)
    (damage maximum_range : Int) : StepResult :=
  let sel := lightningSelect en.game_map consumer.x consumer.y consumer.eid
    maximum_range
  match sel.1 with
  | some target =>
    let en1 := en.add_message
    let en2 := en1.take_damage target.eid damage
    ⟨en2.consumeItem consumer.eid item_eid, none⟩
  | none => ⟨en, some "No enemy is close enough to strike."⟩

/-- ConfusionConsumable.activate. -/
def confusionActivate (en : Engine) (consumer : ActorE) (item_eid : Nat)
    (number_of_turns : Int) (target_xy : Int × Int) : StepResult :=
  if ¬ en.game_map.visible target_xy.1 target_xy.2 then
    ⟨en, some "You cannot target an area that you cannot see."⟩
  else
    match en.game_map.get_actor_at_location target_xy.1 target_xy.2 with
    | none => ⟨en, some "You must select an enemy to target"⟩
    | some target =>
      if target.eid = consumer.eid then
        ⟨en, some "You cannot confuse yourself!"⟩
      else
        let en1 := en.add_message
        let en2 := en1.setAI target.eid
          (some (AI.confused target.ai number_of_turns))
        ⟨en2.consumeItem consumer.eid item_eid, none⟩

/-- The `for actor in self.engine.game_map.actors` loop of
FireballDamageConsumable.activate.  The generator filters the (stable)
entity set lazily, so actor-hood is taken from the snapshot of eids
while aliveness, position and hp are re-read from the current engine
state when each entity is reached.  `r2` is the square of the radius
(`actor.distance(*target_xy) <= self.radius` compared through squares;
exact for radius ≥ 0, which holds for every constructed consumable). -/
def fireballLoop (damage r2 tx ty : Int) :
    List Nat → Engine → Bool → Engine × Bool
  | [], en, hit => (en, hit)
  | eid :: rest, en, hit =>
    match en.findActor eid with
    | some a =>
      if a.is_alive ∧ dist2 tx ty a.x a.y ≤ r2 then
        fireballLoop damage r2 tx ty rest
          ((en.add_message).take_damage a.eid damage) true
      else
        fireballLoop damage r2 tx ty rest en hit
    | none => fireballLoop damage r2 tx ty rest en hit

/-- The eids of the map's Actor entities (the isinstance filter of the
actors generator; the entity set itself is not mutated during the
fireball loop). -/
def GameMap.actorEids (m : GameMap) : List Nat :=
  m.entities.filterMap fun e =>
    match e with
    | .actor a => some a.eid
    | .item _ => none

/-- FireballDamageConsumable.activate. -/
def fireballActivate (en : Engine) (consumer_eid item_eid : Nat)
    (damage radius : Int) (target_xy : Int × Int) : StepResult :=
  if ¬ en.game_map.visible target_xy.1 target_xy.2 then
    ⟨en, some "You cannot target an area that you cannot see."⟩
  else
    let looped := fireballLoop damage (radius ^ 2) target_xy.1 target_xy.2
      en.game_map.actorEids en false
    if looped.2 then
      ⟨looped.1.consumeItem consumer_eid item_eid, none⟩
    else
      ⟨looped.1, some "There are no targets in the radius."⟩

/-- ItemAction.perform: dispatch on the item's Consumable capability
(`if self.item.consumable: self.item.consumable.activate(self)`).  The
item is looked up in the acting actor's inventory (where every
ItemAction built by the handlers finds it). -/
def itemActionPerform (en : Engine) (aeid item_eid : Nat)
    (target_xy : Int × Int) : StepResult :=
  match en.findActor aeid with
  | none => ⟨en, none⟩
  | some a =>
    match a.inventory.find? (fun it => it.eid == item_eid) with
    | none => ⟨en, none⟩
    | some it =>
      match it.consumable with
      | none => ⟨en, none⟩
      | some (.healing amount) => healingActivate en a it.eid amount
      | some (.lightning damage maximum_range) =>
        lightningActivate en a it.eid damage maximum_range
      | some (.confusion number_of_turns) =>
        confusionActivate en a it.eid number_of_turns target_xy
      | some (.fireball damage radius) =>
        fireballActivate en a.eid it.eid damage radius target_xy

/-- The eight-entry direction list of ConfusedEnemy.perform, in source
order. -/
def confusedDirections : List (Int × Int) :=
  [(-1, -1), (0, -1), (1, -1), (-1, 0), (1, 0), (-1, 1), (0, 1), (1, 1)]

/-- `random.choice(...)` over the direction list with a uniform index. -/
def randomDirection (k : Fin 8) : Int × Int :=
  confusedDirections.getD k.val (0, 0)

/-- ConfusedEnemy.perform (only reachable through the actor's own ai
field, which must currently be this ConfusedEnemy). -/
def confusedPerform (en : Engine) (aeid : Nat) (previous : Option AI)
    (turns_remaining : Int) (k : Fin 8) : StepResult :=
  if turns_remaining ≤ 0 then
    let en1 := en.add_message
    ⟨en1.setAI aeid previous, none⟩
  else
    let dir := randomDirection k
    let en1 := en.setAI aeid
      (some (AI.confused previous (turns_remaining - 1)))
    bumpPerform en1 aeid dir.1 dir.2

/-- HostileEnemy.perform; `oracle_path` stands for the external
tcod.path shortest-path computation of get_path_to. -/
def hostilePerform (en : Engine) (aeid : Nat) (path : List (Int × Int))
    (oracle_path : List (Int × Int)) : StepResult :=
  match en.player?, en.findActor aeid with
  | some p, some a =>
    let dx := p.x - a.x
    let dy := p.y - a.y
    let distance := max dx.natAbs dy.natAbs
    if en.game_map.visible a.x a.y ∧ distance ≤ 1 then
      meleePerform en aeid dx dy
    else
      let newPath := if en.game_map.visible a.x a.y then oracle_path else path
      match newPath with
      | [] =>
        let en1 := en.setAI aeid (some (AI.hostile newPath))
        ⟨en1, none⟩
      | dest :: rest =>
        let en1 := en.setAI aeid (some (AI.hostile rest))
        movementPerform en1 aeid (dest.1 - a.x) (dest.2 - a.y)
  | _, _ => ⟨en, none⟩

/-- One enemy-turn AI invocation (`if entity.ai:
entity.ai.perform()`). -/
def aiTurnPerform (en : Engine) (aeid : Nat)
    (oracle_path : List (Int × Int)) (k : Fin 8) : StepResult :=
  match en.findActor aeid with
  | none => ⟨en, none⟩
  | some a =>
    match a.ai with
    | none => ⟨en, none⟩
    | some (.hostile path) => hostilePerform en aeid path oracle_path
    | some (.confused previous turns_remaining) =>
      confusedPerform en aeid previous turns_remaining k

/-- Equipment.unequip_from_slot / equip_to_slot / toggle_equip for one
slot, returning the new slot value and message count.  Slot item
comparison is identity (eid). -/
def toggleSlot (slot : Option ItemE) (it : ItemE) :
    Option ItemE × Nat :=
  match slot with
  | some cur =>
    if cur.eid = it.eid then (none, 1)
    else (some it, 2)
  | none => (some it, 1)

/-- EquipAction.perform = Equipment.toggle_equip (add_message=True). -/
def equipPerform (en : Engine) (aeid item_eid : Nat) : StepResult :=
  match en.findActor aeid with
  | none => ⟨en, none⟩
  | some a =>
    match a.inventory.find? (fun it => it.eid == item_eid) with
    | none => ⟨en, none⟩
    | some it =>
      let isWeapon : Bool :=
        match it.equippable with
        | some q => q.equipment_type == EquipmentType.WEAPON
        | none => false
      let acted :=
        if isWeapon then
          let r := toggleSlot a.equipment.weapon it
          ({ a.equipment with weapon := r.1 }, r.2)
        else
          let r := toggleSlot a.equipment.armor it
          ({ a.equipment with armor := r.1 }, r.2)
      let en1 := en.modifyActor aeid fun b => { b with equipment := acted.1 }
      ⟨{ en1 with log := en1.log + acted.2 }, none⟩

/-- DropItem.perform: unequip first when equipped, then
Inventory.drop (remove from the list, place at the actor's position on
the map, log). -/
def dropPerform (en : Engine) (aeid item_eid : Nat) : StepResult :=
  match en.findActor aeid with
  | none => ⟨en, none⟩
  | some a =>
    match a.inventory.find? (fun it => it.eid == item_eid) with
    | none => ⟨en, none⟩
    | some it =>
      let afterToggle : StepResult :=
        if a.equipment.item_is_equipped it.eid then
          equipPerform en aeid item_eid
        else ⟨en, none⟩
      let en1 := afterToggle.engine
      match en1.findActor aeid with
      | none => ⟨en1, none⟩
      | some a1 =>
        let en2 := en1.modifyActor aeid fun b =>
          { b with inventory := eraseFirstEid b.inventory item_eid }
        let placed := { it with x := a1.x, y := a1.y }
        let en3 := { en2 with
          game_map := { en2.game_map with
            entities := en2.game_map.entities ++ [Entity.item placed] } }
        ⟨en3.add_message, none⟩

/-- The closed set of operations of the embedded action system: every
Action.perform the handlers or the enemy-turn scheduler can run.
Randomness and the external tcod computations travel inside the
operation as oracles. -/
inductive Op where
  | wait (aeid : Nat)
  | move (aeid : Nat) (dx dy : Int)
  | melee (aeid : Nat) (dx dy : Int)
  | bump (aeid : Nat) (dx dy : Int)
  | pickup (aeid : Nat)
  | takeStairs (aeid : Nat)
      (bres : Int × Int → Int × Int → List (Int × Int))
      (draws : List CandidateDraw)
  | useItem (aeid item_eid : Nat) (target_xy : Int × Int)
  | equip (aeid item_eid : Nat)
  | drop (aeid item_eid : Nat)
  | aiTurn (aeid : Nat) (oracle_path : List (Int × Int)) (k : Fin 8)

/-- Run one operation. -/
def applyOp (en : Engine) : Op → StepResult
  | .wait _ => ⟨en, none⟩
  | .move aeid dx dy => movementPerform en aeid dx dy
  | .melee aeid dx dy => meleePerform en aeid dx dy
  | .bump aeid dx dy => bumpPerform en aeid dx dy
  | .pickup aeid => pickupPerform en aeid
  | .takeStairs aeid bres draws => takeStairsPerform en aeid bres draws
  | .useItem aeid item_eid target_xy => itemActionPerform en aeid item_eid target_xy
  | .equip aeid item_eid => equipPerform en aeid item_eid
  | .drop aeid item_eid => dropPerform en aeid item_eid
  | .aiTurn aeid oracle_path k => aiTurnPerform en aeid oracle_path k

/-! ### Predicates and observation helpers used by the theorems -/

/-- Distinct object identities on the map (Python objects are distinct;
the generator only ever inserts fresh clones). -/
@[reducible]
def EidsNodup (en : Engine) : Prop :=
  (en.game_map.entities.map Entity.eid).Nodup

/-- Observe an actor's current hp. -/
def hpOf (en : Engine) (eid : Nat) : Option Int :=
  (en.findActor eid).map fun a => a.fighter.hp

/-- Observe an actor's inventory length. -/
def invLenOf (en : Engine) (eid : Nat) : Option Nat :=
  (en.findActor eid).map fun a => a.inventory.length

/-- The corpse state Fighter.die leaves an actor in. -/
def deadCorpse (a : ActorE) : Prop :=
  a.ai = none ∧ a.blocks_movement = false ∧
  a.render_order = RenderOrder.CORPSE

/-- Every actor object with the given eid in the list is a dead
corpse. -/
def BadDead (es : List Entity) (bad : Nat) : Prop :=
  ∀ a, Entity.actor a ∈ es → a.eid = bad → deadCorpse a

/-- Engine-level view of `BadDead`. -/
def Engine.DeadAt (en : Engine) (bad : Nat) : Prop :=
  BadDead en.game_map.entities bad

/-- Whether an entity is a living actor. -/
def Entity.alive : Entity → Bool
  | .actor a => a.is_alive
  | .item _ => false

/-- Two actor states equal in everything except the Level component
(the only other-actor field the damage pipeline can touch, through the
xp award of Fighter.die). -/
def SameButLevel (b b1 : ActorE) : Prop :=
  b1.eid = b.eid ∧ b1.x = b.x ∧ b1.y = b.y ∧
  b1.blocks_movement = b.blocks_movement ∧
  b1.render_order = b.render_order ∧ b1.ai = b.ai ∧
  b1.fighter = b.fighter ∧ b1.equipment = b.equipment ∧
  b1.capacity = b.capacity ∧ b1.inventory = b.inventory

/-- The outcome Fighter.take_damage(amount) leaves on the struck actor
itself: hp written through the clamping setter, death applied exactly
when the clamped value is 0 and the actor was alive; position,
inventory and equipment untouched. -/
def Damaged (amount : Int) (a a1 : ActorE) : Prop :=
  a1.eid = a.eid ∧ a1.x = a.x ∧ a1.y = a.y ∧
  a1.fighter = a.fighter.setHp (a.fighter.hp - amount) ∧
  a1.inventory = a.inventory ∧ a1.equipment = a.equipment ∧
  a1.capacity = a.capacity ∧
  (if a.fighter.clamped (a.fighter.hp - amount) = 0 ∧ a.ai.isSome then
    deadCorpse a1
  else
    a1.ai = a.ai ∧ a1.blocks_movement = a.blocks_movement ∧
    a1.render_order = a.render_order)

/-- The entities a place_entities oracle spawns are fresh deep copies,
hence never alias an existing object identity. -/
def CandidateDraw.FreshFor (d : CandidateDraw) (bad : Nat) : Prop :=
  ∀ room es e, e ∈ d.ents room es → e.eid ≠ bad

/-- Freshness of every oracle an operation carries, for one identity. -/
def Op.FreshFor : Op → Nat → Prop
  | .takeStairs _ _ draws, bad => ∀ d ∈ draws, d.FreshFor bad
  | _, _ => True

/-- Number of occurrences of one item object among a map's entities. -/
def countItem (es : List Entity) (it : ItemE) : Nat :=
  es.countP fun e =>
    match e with
    | .item j => j == it
    | .actor _ => false

/-- An actor that the lightning scan may consider at all: a living
actor other than the consumer standing on a visible tile. -/
def visibleOther (m : GameMap) (consumer_eid : Nat) (a : ActorE) : Prop :=
  a.eid ≠ consumer_eid ∧ m.visible a.x a.y = true

/-- Modelled from the spec: "effective power/defense add equipment
bonuses", i.e. effective defense is base_defense plus the sum of the
defense bonuses of the equipped weapon and armor (the value the claim
asserts; compare `ActorE.defense`, transcribed from the code). -/
def specEffectiveDefense (a : ActorE) : Int :=
  a.fighter.base_defense +
  ((match a.equipment.weapon with
    | some w =>
      match w.equippable with
      | some q => q.defense_bonus
      | none => 0
    | none => 0) +
   (match a.equipment.armor with
    | some r =>
      match r.equippable with
      | some q => q.defense_bonus
      | none => 0
    | none => 0))

/-- Modelled from the spec: effective power is base_power plus the sum
of the power bonuses of the equipped weapon and armor. -/
def specEffectivePower (a : ActorE) : Int :=
  a.fighter.base_power +
  ((match a.equipment.weapon with
    | some w =>
      match w.equippable with
      | some q => q.power_bonus
      | none => 0
    | none => 0) +
   (match a.equipment.armor with
    | some r =>
      match r.equippable with
      | some q => q.power_bonus
      | none => 0
    | none => 0))

/-- The list of rooms generate_dungeon accepted (the loop's `rooms`
variable at exit). -/
def acceptedRooms (max_rooms : Nat) (map_width map_height : Nat)
    (player : Entity) (player_eid : Nat)
    (bres : Int × Int → Int × Int → List (Int × Int))
    (draws : List CandidateDraw) : List RectangularRoom :=
  let dungeon : GameMap :=
    { width := map_width, height := map_height,
      tiles := fun _ _ => Tile.wall,
      visible := fun _ _ => false,
      entities := [player],
      downstairs_location := (0, 0) }
  (genLoop bres player_eid (draws.take max_rooms) dungeon []).2

/-! ### Concrete game states used by witnesses and counterexamples -/

/-- A Level for monsters/witness actors: level_up_base = 0, so add_xp
returns immediately. -/
def npcLevel : Level := ⟨1, 0, 0, 150, 0⟩

/-- Empty equipment. -/
def noEquip : Equipment := ⟨none, none⟩

/-- A freshly constructed Actor entity (blocks_movement=True,
render_order=ACTOR). -/
def mkActor (eid : Nat) (x y : Int) (ai : Option AI) (f : Fighter) :
    ActorE :=
  ⟨eid, x, y, true, RenderOrder.ACTOR, ai, f, noEquip, 26, [], npcLevel⟩

/-- An all-floor, all-visible 10×10 map. -/
def mkMap (es : List Entity) : GameMap :=
  { width := 10, height := 10, tiles := fun _ _ => Tile.floor,
    visible := fun _ _ => true, entities := es,
    downstairs_location := (9, 9) }

/-- An engine over `mkMap`. -/
def mkEngine (es : List Entity) (pe : Nat) : Engine :=
  { game_map := mkMap es, player_eid := pe, log := 0, current_floor := 1,
    max_rooms := 3, room_min_size := 3, room_max_size := 4,
    map_width := 10, map_height := 10 }

/-- An armor item whose equippable has power_bonus 1 and defense_bonus
3 (exposes the defense_bonus transcription of equipment.py line 37). -/
def bugArmorItem : ItemE :=
  ⟨7, 0, 0, false, RenderOrder.ITEM, none,
   some ⟨EquipmentType.ARMOR, 1, 3⟩⟩

/-- An actor with base_defense 0, base_power 0, no weapon, and
`bugArmorItem` equipped in the armor slot. -/
def bugActor : ActorE :=
  { mkActor 0 0 0 none (Fighter.init 10 0 0) with
    equipment := ⟨none, some bugArmorItem⟩,
    inventory := [bugArmorItem] }

/-- A lightning scroll: damage 4, maximum_range 5. -/
def lightningScroll : ItemE :=
  ⟨50, 0, 0, false, RenderOrder.ITEM, some (Consumable.lightning 4 5),
   none⟩

/-- Lightning consumer at (0,0) carrying the scroll. -/
def zapConsumer : ActorE :=
  { mkActor 0 0 0 (some (AI.hostile [])) (Fighter.init 30 0 0) with
    inventory := [lightningScroll] }

/-- A living actor at (5,1): Euclidean distance √26 ≈ 5.099 from the
consumer, which exceeds the maximum range 5 but is below 5 + 1. -/
def zapTarget : ActorE :=
  mkActor 1 5 1 (some (AI.hostile [])) (Fighter.init 10 0 0)

/-- World for the lightning counterexample/witness. -/
def zapEngine : Engine :=
  mkEngine [.actor zapConsumer, .actor zapTarget] 0

/-- C4 scenario attacker: hp 10, power 5, defense 0, at (0,0). -/
def meleeAttacker : ActorE :=
  mkActor 0 0 0 (some (AI.hostile [])) (Fighter.init 10 0 5)

/-- C4 scenario defender: hp 8, defense 2, at (1,0). -/
def meleeDefender : ActorE :=
  mkActor 1 1 0 (some (AI.hostile [])) (Fighter.init 8 2 0)

/-- World for the melee scenario. -/
def meleeEngine : Engine :=
  mkEngine [.actor meleeAttacker, .actor meleeDefender] 0

/-- An inert item already carried (eid 10). -/
def carriedPotion : ItemE :=
  ⟨10, 0, 0, false, RenderOrder.ITEM, some (Consumable.healing 4), none⟩

/-- A second item lying at (2,2) (eid 11). -/
def groundPotion : ItemE :=
  ⟨11, 2, 2, false, RenderOrder.ITEM, some (Consumable.healing 4), none⟩

/-- Pickup actor with capacity 1 already holding one item, at (2,2). -/
def pickupActor : ActorE :=
  { mkActor 0 2 2 (some (AI.hostile [])) (Fighter.init 10 0 0) with
    capacity := 1, inventory := [carriedPotion] }

/-- World for the pickup scenario: the second item is on the map. -/
def pickupEngine : Engine :=
  mkEngine [.actor pickupActor, .item groundPotion] 0

/-- Stairs scenario actor standing at (1,1), off the (9,9) stairs. -/
def stairsActor : ActorE :=
  mkActor 0 1 1 (some (AI.hostile [])) (Fighter.init 10 0 0)

/-- World for the stairs scenario. -/
def stairsEngine : Engine := mkEngine [.actor stairsActor] 0

/-- A confused actor whose effect has run out (turns_remaining = 0),
previous AI a HostileEnemy. -/
def confusedActor : ActorE :=
  mkActor 0 4 4 (some (AI.confused (some (AI.hostile [])) 0))
    (Fighter.init 10 0 0)

/-- World for the confusion scenario. -/
def confusedEngine : Engine := mkEngine [.actor confusedActor] 0

/-- The player template used by the generator witnesses. -/
def genPlayer : ActorE :=
  mkActor 0 0 0 (some (AI.hostile [])) (Fighter.init 30 1 2)

/-- A candidate draw producing the room (2,2)..(8,8) and spawning
nothing. -/
def genDraw : CandidateDraw :=
  ⟨6, 6, 2, 2, true, fun _ _ => []⟩

/-- A trivial rasterized-line oracle (tunnels are irrelevant to the
downstairs claim). -/
def genBres : Int × Int → Int × Int → List (Int × Int) := fun _ _ => []

/-- An actor about to die: hp 3, at (5,5). -/
def dyingActor : ActorE :=
  mkActor 1 5 5 (some (AI.hostile [])) (Fighter.init 3 0 0)

/-- World for the death-invariant witness. -/
def dieEngine : Engine :=
  mkEngine [.actor genPlayer, .actor dyingActor] 0

/-- A fireball scroll: damage 12, radius 3 (eid 60). -/
def fireballScroll : ItemE :=
  ⟨60, 0, 0, false, RenderOrder.ITEM, some (Consumable.fireball 12 3),
   none⟩

/-- Fireball consumer at (0,0), hp 30, carrying the scroll. -/
def fireConsumer : ActorE :=
  { mkActor 0 0 0 (some (AI.hostile [])) (Fighter.init 30 0 0) with
    inventory := [fireballScroll] }

/-- A victim at (2,2), hp 10 (within radius 3 of the target (1,1)). -/
def fireVictim : ActorE :=
  mkActor 1 2 2 (some (AI.hostile [])) (Fighter.init 10 0 0)

/-- A bystander at (9,9), far outside the blast radius. -/
def fireBystander : ActorE :=
  mkActor 2 9 9 (some (AI.hostile [])) (Fighter.init 10 0 0)

/-- World for the fireball scenario. -/
def fireEngine : Engine :=
  mkEngine [.actor fireConsumer, .actor fireVictim, .actor fireBystander] 0

/-! ### Lemmas: the Fighter hp invariant -/

theorem fighter_applyCall_inv (f : Fighter) (c : FighterCall)
    (hmax : 0 ≤ f.max_hp) (h0 : 0 ≤ f.hp) (h1 : f.hp ≤ f.max_hp) :
    0 ≤ (f.applyCall c).hp ∧ (f.applyCall c).hp ≤ (f.applyCall c).max_hp ∧
      (f.applyCall c).max_hp = f.max_hp := by
  cases c with
  | heal amount =>
    simp only [Fighter.applyCall, Fighter.heal]
    split
    · exact ⟨h0, h1, rfl⟩
    · simp only [Fighter.setHp, Fighter.clamped]
      refine ⟨?_, ?_, trivial⟩ <;> omega
  | take_damage amount =>
    simp only [Fighter.applyCall, Fighter.take_damage, Fighter.setHp,
      Fighter.clamped]
    refine ⟨?_, ?_, trivial⟩ <;> omega
  | set_hp value =>
    simp only [Fighter.applyCall, Fighter.setHp, Fighter.clamped]
    refine ⟨?_, ?_, trivial⟩ <;> omega

theorem fighter_runCalls_inv (calls : List FighterCall) :
    ∀ f : Fighter, 0 ≤ f.max_hp → 0 ≤ f.hp → f.hp ≤ f.max_hp →
      0 ≤ (f.runCalls calls).hp ∧
      (f.runCalls calls).hp ≤ (f.runCalls calls).max_hp := by
  induction calls with
  | nil => intro f _ h2 h3; exact ⟨h2, h3⟩
  | cons c rest ih =>
    intro f h1 h2 h3
    have h := fighter_applyCall_inv f c h1 h2 h3
    have hmax : 0 ≤ (f.applyCall c).max_hp := h.2.2 ▸ h1
    simpa [Fighter.runCalls, List.foldl] using
      ih (f.applyCall c) hmax h.1 h.2.1

/-- Claim C1: for every Fighter (constructed with a nonnegative hp, as
every fighter in the game is) and every finite sequence of heal /
take_damage / hp-setter calls with arbitrary integer arguments, hp is
within [0, max_hp] after each call (every prefix of a call sequence is
itself a valid instantiation of `calls`). -/
theorem C1_fighter_hp_bounds (hp0 base_defense base_power : Int)
    (h0 : 0 ≤ hp0) (calls : List FighterCall) :
    0 ≤ ((Fighter.init hp0 base_defense base_power).runCalls calls).hp ∧
    ((Fighter.init hp0 base_defense base_power).runCalls calls).hp ≤
      ((Fighter.init hp0 base_defense base_power).runCalls calls).max_hp :=
  fighter_runCalls_inv calls _ h0 h0 le_rfl

theorem C1_fighter_hp_bounds_witness :
    (0 : Int) ≤ 10 ∧
    (0 ≤ ((Fighter.init 10 1 2).runCalls
        [FighterCall.take_damage 25, FighterCall.heal 100,
         FighterCall.set_hp (-3)]).hp ∧
     ((Fighter.init 10 1 2).runCalls
        [FighterCall.take_damage 25, FighterCall.heal 100,
         FighterCall.set_hp (-3)]).hp ≤
       ((Fighter.init 10 1 2).runCalls
        [FighterCall.take_damage 25, FighterCall.heal 100,
         FighterCall.set_hp (-3)]).max_hp) :=
  ⟨by decide, C1_fighter_hp_bounds 10 1 2 (by decide) _⟩

/-- Claim C2 (code bug, equipment.py line 37): on an actor with no
weapon, base_defense 0 and an equipped armor item whose equippable has
power_bonus 1 and defense_bonus 3, the code computes effective defense
0 + 0 + 1 = 1 (it adds the armor's power_bonus), while the claimed
value — base_defense plus the sum of the defense bonuses — is 3.  The
power half of the claim does hold for every actor. -/
theorem C2_equipment_bonus_divergence :
    bugActor.defense = 1 ∧
    specEffectiveDefense bugActor = 3 ∧
    bugActor.defense ≠ specEffectiveDefense bugActor ∧
    (∀ a : ActorE, a.power = specEffectivePower a) := by
  refine ⟨by decide, by decide, by decide, ?_⟩
  intro a
  simp only [ActorE.power, specEffectivePower, Equipment.power_bonus]

/-! ### Lemmas: the dungeon generator loop -/

theorem genLoop_downstairs
    (bres : Int × Int → Int × Int → List (Int × Int)) (pe : Nat)
    (draws : List CandidateDraw) :
    ∀ (dungeon : GameMap) (rooms : List RectangularRoom),
      (∀ h : rooms ≠ [],
        dungeon.downstairs_location = (rooms.getLast h).center) →
      ∀ h2 : (genLoop bres pe draws dungeon rooms).2 ≠ [],
        (genLoop bres pe draws dungeon rooms).1.downstairs_location =
          ((genLoop bres pe draws dungeon rooms).2.getLast h2).center := by
  induction draws with
  | nil => intro dungeon rooms hinv h2; exact hinv h2
  | cons d rest ih =>
    intro dungeon rooms hinv h2
    by_cases hcut : rooms.any
        (fun other =>
          (RectangularRoom.make d.x d.y d.room_width d.room_height).intersects
            other)
    · simp only [genLoop, if_pos hcut] at h2 ⊢
      exact ih dungeon rooms hinv h2
    · simp only [genLoop, if_neg hcut] at h2 ⊢
      refine ih _ _ ?_ h2
      intro h3
      simp [List.getLast_append]

/-- Claim C8: whenever generate_dungeon accepts at least one room, the
returned map's downstairs_location is the center of the last accepted
room (the marker is advanced on every accepted room, so it ends at the
final accepted one — not necessarily the max_rooms-th candidate). -/
theorem C8_downstairs_last_accepted_room (max_rooms mw mh : Nat)
    (player : Entity) (pe : Nat)
    (bres : Int × Int → Int × Int → List (Int × Int))
    (draws : List CandidateDraw)
    (h2 : acceptedRooms max_rooms mw mh player pe bres draws ≠ []) :
    (generate_dungeon max_rooms mw mh player pe bres
        draws).downstairs_location =
      ((acceptedRooms max_rooms mw mh player pe bres draws).getLast
        h2).center :=
  genLoop_downstairs bres pe (draws.take max_rooms) _ []
    (fun h => absurd rfl h) h2

theorem C8_downstairs_witness :
    (acceptedRooms 1 10 10 (.actor genPlayer) 0 genBres [genDraw] ≠ []) ∧
    (generate_dungeon 1 10 10 (.actor genPlayer) 0 genBres
        [genDraw]).downstairs_location = (5, 5) := by
  have h : acceptedRooms 1 10 10 (.actor genPlayer) 0 genBres
      [genDraw] ≠ [] := by decide
  refine ⟨h, ?_⟩
  rw [C8_downstairs_last_accepted_room 1 10 10 (.actor genPlayer) 0 genBres
    [genDraw] h]
  have hq := List.getLast?_eq_getLast_of_ne_nil h
  have hv : (acceptedRooms 1 10 10 (.actor genPlayer) 0 genBres
      [genDraw]).getLast? = some (RectangularRoom.make 2 2 6 6) := by decide
  rw [hv] at hq
  have hlast := Option.some.inj hq
  rw [← hlast]
  decide

/-- Claim C6: TakeStairsAction raises Impossible("There are no stairs
here.") and leaves the engine unchanged whenever the acting entity is
off the downstairs location; on the downstairs tile it advances
current_floor by one, replaces the game map with a freshly generated
dungeon, and logs one descend message. -/
theorem C6_take_stairs (en : Engine) (aeid : Nat) (a p : ActorE)
    (bres : Int × Int → Int × Int → List (Int × Int))
    (draws : List CandidateDraw)
    (ha : en.findActor aeid = some a)
    (hp : en.player? = some p) :
    ((a.x, a.y) ≠ en.game_map.downstairs_location →
      takeStairsPerform en aeid bres draws =
        ⟨en, some "There are no stairs here."⟩) ∧
    ((a.x, a.y) = en.game_map.downstairs_location →
      (takeStairsPerform en aeid bres draws).err = none ∧
      (takeStairsPerform en aeid bres draws).engine.current_floor =
        en.current_floor + 1 ∧
      (takeStairsPerform en aeid bres draws).engine.game_map =
        generate_dungeon en.max_rooms en.map_width en.map_height
          (.actor p) en.player_eid bres draws ∧
      (takeStairsPerform en aeid bres draws).engine.log = en.log + 1) := by
  constructor
  · intro hne
    simp [takeStairsPerform, ha, hne]
  · intro heq
    simp [takeStairsPerform, ha, heq, Engine.generate_floor, hp,
      Engine.add_message]

theorem C6_take_stairs_witness :
    stairsEngine.findActor 0 = some stairsActor ∧
    stairsEngine.player? = some stairsActor ∧
    ((stairsActor.x, stairsActor.y) ≠
      stairsEngine.game_map.downstairs_location) ∧
    takeStairsPerform stairsEngine 0 genBres [genDraw] =
      ⟨stairsEngine, some "There are no stairs here."⟩ :=
  ⟨rfl, rfl, by decide,
   (C6_take_stairs stairsEngine 0 stairsActor stairsActor genBres [genDraw]
     rfl rfl).1 (by decide)⟩

/-! ### Lemmas: eid lookup and in-place mutation -/

theorem findActorL_eid (es : List Entity) (eid : Nat) (a : ActorE)
    (h : findActorL es eid = some a) : a.eid = eid := by
  induction es with
  | nil => simp [findActorL] at h
  | cons e rest ih =>
    cases e with
    | item i => exact ih (by simpa [findActorL] using h)
    | actor b =>
      by_cases hb : b.eid = eid
      · simp [findActorL, hb] at h
        simp_all
      · exact ih (by simpa [findActorL, hb] using h)

theorem findActorL_mem (es : List Entity) (eid : Nat) (a : ActorE)
    (h : findActorL es eid = some a) : Entity.actor a ∈ es := by
  induction es with
  | nil => simp [findActorL] at h
  | cons e rest ih =>
    cases e with
    | item i =>
      exact List.mem_cons_of_mem _ (ih (by simpa [findActorL] using h))
    | actor b =>
      by_cases hb : b.eid = eid
      · simp [findActorL, hb] at h
        simp [h]
      · exact List.mem_cons_of_mem _
          (ih (by simpa [findActorL, hb] using h))

theorem findActorL_modify (es : List Entity) (eid j : Nat)
    (f : ActorE → ActorE) (hEid : ∀ b, (f b).eid = b.eid) :
    findActorL (modifyEnts es eid f) j =
      (findActorL es j).map fun b => if b.eid = eid then f b else b := by
  induction es with
  | nil => rfl
  | cons e rest ih =>
    cases e with
    | item i => simpa [modifyEnts, findActorL] using ih
    | actor b =>
      simp only [modifyEnts]
      by_cases hb : b.eid = eid
      · rw [if_pos hb]
        by_cases hj : b.eid = j
        · have hfj : (f b).eid = j := by rw [hEid b]; exact hj
          have hje : j = eid := by omega
          simp [findActorL, hfj, hj, hb, hje]
        · have hfj : ¬ (f b).eid = j := by rw [hEid b]; exact hj
          simp only [findActorL, if_neg hfj, if_neg hj, ih]
      · rw [if_neg hb]
        by_cases hj : b.eid = j
        · have hje : ¬ j = eid := by omega
          simp [findActorL, hj, hb, hje]
        · simp only [findActorL, if_neg hj, ih]

theorem modifyEnts_length (es : List Entity) (eid : Nat)
    (f : ActorE → ActorE) : (modifyEnts es eid f).length = es.length := by
  induction es with
  | nil => rfl
  | cons e rest ih =>
    cases e with
    | item i => simp [modifyEnts, ih]
    | actor b =>
      by_cases hb : b.eid = eid <;> simp [modifyEnts, hb, ih]

theorem findActor_modify_self (en : Engine) (eid : Nat)
    (f : ActorE → ActorE) (a : ActorE)
    (hEid : ∀ b, (f b).eid = b.eid)
    (ha : en.findActor eid = some a) :
    (en.modifyActor eid f).findActor eid = some (f a) := by
  have h1 := findActorL_modify en.game_map.entities eid eid f hEid
  have h2 := findActorL_eid en.game_map.entities eid a ha
  simp only [Engine.findActor, Engine.modifyActor] at ha ⊢
  rw [h1, ha]
  simp [h2]

theorem findActor_modify_other (en : Engine) (eid j : Nat)
    (f : ActorE → ActorE)
    (hEid : ∀ b, (f b).eid = b.eid) (hne : j ≠ eid) :
    (en.modifyActor eid f).findActor j = en.findActor j := by
  have h1 := findActorL_modify en.game_map.entities eid j f hEid
  simp only [Engine.findActor, Engine.modifyActor] at h1 ⊢
  rw [h1]
  cases h2 : findActorL en.game_map.entities j with
  | none => rfl
  | some b =>
    have := findActorL_eid en.game_map.entities j b h2
    simp [this, hne]

theorem actorsList_mem (m : GameMap) (t : ActorE)
    (h : t ∈ m.actorsList) :
    Entity.actor t ∈ m.entities ∧ t.is_alive = true := by
  simp only [GameMap.actorsList, List.mem_filterMap] at h
  obtain ⟨e, he, hm⟩ := h
  cases e with
  | item i => simp at hm
  | actor a =>
    by_cases hal : a.is_alive
    · simp [hal] at hm
      subst hm
      exact ⟨he, hal⟩
    · simp [hal] at hm

theorem mem_actorsList (m : GameMap) (t : ActorE)
    (hmem : Entity.actor t ∈ m.entities) (hal : t.is_alive = true) :
    t ∈ m.actorsList := by
  simp only [GameMap.actorsList, List.mem_filterMap]
  exact ⟨.actor t, hmem, by simp [hal]⟩

theorem get_actor_at_spec (m : GameMap) (x y : Int) (t : ActorE)
    (h : m.get_actor_at_location x y = some t) :
    Entity.actor t ∈ m.entities ∧ t.is_alive = true ∧ t.x = x ∧ t.y = y := by
  have hmem := List.mem_of_find?_eq_some h
  have hpred := List.find?_some h
  simp at hpred
  have := actorsList_mem m t hmem
  exact ⟨this.1, this.2, hpred.1, hpred.2⟩

theorem get_actor_at_none (m : GameMap) (x y : Int)
    (h : ∀ a ∈ m.actorsList, ¬(a.x = x ∧ a.y = y)) :
    m.get_actor_at_location x y = none := by
  apply List.find?_eq_none.mpr
  intro a ha
  have := h a ha
  simp only [Bool.and_eq_true, beq_iff_eq]
  intro hc
  exact this ⟨hc.1, hc.2⟩

theorem hpOf_modify (en : Engine) (eid j : Nat) (f : ActorE → ActorE)
    (hEid : ∀ b, (f b).eid = b.eid)
    (hF : ∀ b, (f b).fighter = b.fighter) :
    hpOf (en.modifyActor eid f) j = hpOf en j := by
  simp only [hpOf, Engine.findActor, Engine.modifyActor]
  rw [findActorL_modify _ _ _ _ hEid]
  cases findActorL en.game_map.entities j with
  | none => rfl
  | some b => by_cases hb : b.eid = eid <;> simp [hb, hF]

/-- Claim C7: a ConfusedEnemy invoked with turns_remaining ≤ 0 reverts
the actor's AI to the stored previous AI and performs nothing that turn
(no position, no hp, no entity-set change); invoked with positive
turns_remaining it decrements the counter and performs a Bump in a
direction drawn by random.choice from the eight-entry direction list —
the draw is uniform: each of the eight grid directions is produced by
exactly one of the eight equally likely indices. -/
theorem C7_confused_enemy (en : Engine) (aeid : Nat) (a : ActorE)
    (previous : Option AI) (turns : Int) (oracle_path : List (Int × Int))
    (k : Fin 8)
    (ha : en.findActor aeid = some a)
    (hai : a.ai = some (AI.confused previous turns)) :
    aiTurnPerform en aeid oracle_path k =
      confusedPerform en aeid previous turns k ∧
    (turns ≤ 0 →
      (confusedPerform en aeid previous turns k).err = none ∧
      (∃ a1, (confusedPerform en aeid previous turns k).engine.findActor
          aeid = some a1 ∧ a1.ai = previous ∧ a1.x = a.x ∧ a1.y = a.y ∧
          a1.fighter = a.fighter) ∧
      (∀ j, hpOf (confusedPerform en aeid previous turns k).engine j =
        hpOf en j) ∧
      (confusedPerform en aeid previous turns
          k).engine.game_map.entities.length =
        en.game_map.entities.length ∧
      (confusedPerform en aeid previous turns k).engine.log = en.log + 1) ∧
    (0 < turns →
      confusedPerform en aeid previous turns k =
        bumpPerform (en.setAI aeid
          (some (AI.confused previous (turns - 1)))) aeid
          (randomDirection k).1 (randomDirection k).2 ∧
      randomDirection k ∈ confusedDirections) ∧
    (Function.Injective randomDirection ∧
      ∀ d ∈ confusedDirections, ∃ j : Fin 8, randomDirection j = d) ∧
    (∀ dx dy : Int, (dx, dy) ∈ confusedDirections ↔
      max dx.natAbs dy.natAbs = 1) := by
  refine ⟨?_, ?_, ?_, ?_, ?_⟩
  · simp [aiTurnPerform, ha, hai]
  · intro ht
    simp only [confusedPerform, if_pos ht]
    refine ⟨by trivial, ?_, ?_, ?_, by trivial⟩
    · refine ⟨{ a with ai := previous }, ?_, rfl, rfl, rfl, rfl⟩
      exact findActor_modify_self (en.add_message) aeid _ a
        (fun b => rfl) ha
    · intro j
      exact hpOf_modify (en.add_message) aeid j _ (fun b => rfl)
        (fun b => rfl)
    · exact modifyEnts_length _ _ _
  · intro ht
    simp only [confusedPerform, if_neg (by omega : ¬ turns ≤ 0)]
    exact ⟨by trivial, by fin_cases k <;> decide⟩
  · refine ⟨by decide, ?_⟩
    intro d hd
    fin_cases hd <;> decide
  · intro dx dy
    constructor
    · intro h
      simp only [confusedDirections, List.mem_cons, List.mem_singleton,
        Prod.mk.injEq, List.not_mem_nil, or_false] at h
      rcases h with ⟨ha1, hb1⟩ | ⟨ha2, hb2⟩ | ⟨ha3, hb3⟩ | ⟨ha4, hb4⟩ |
          ⟨ha5, hb5⟩ | ⟨ha6, hb6⟩ | ⟨ha7, hb7⟩ | ⟨ha8, hb8⟩ <;>
        subst_vars <;> decide
    · intro h
      have hdx : dx = -1 ∨ dx = 0 ∨ dx = 1 := by omega
      have hdy : dy = -1 ∨ dy = 0 ∨ dy = 1 := by omega
      rcases hdx with rfl | rfl | rfl <;> rcases hdy with rfl | rfl | rfl <;>
        first
          | decide
          | (exfalso; omega)

theorem C7_confused_enemy_witness :
    confusedEngine.findActor 0 = some confusedActor ∧
    confusedActor.ai = some (AI.confused (some (AI.hostile [])) 0) ∧
    ((0 : Int) ≤ 0 →
      (confusedPerform confusedEngine 0 (some (AI.hostile [])) 0
        (0 : Fin 8)).err = none ∧
      (∃ a1, (confusedPerform confusedEngine 0 (some (AI.hostile [])) 0
          (0 : Fin 8)).engine.findActor 0 = some a1 ∧
          a1.ai = some (AI.hostile []) ∧ a1.x = confusedActor.x ∧
          a1.y = confusedActor.y ∧ a1.fighter = confusedActor.fighter) ∧
      (∀ j, hpOf (confusedPerform confusedEngine 0 (some (AI.hostile []))
          0 (0 : Fin 8)).engine j = hpOf confusedEngine j) ∧
      (confusedPerform confusedEngine 0 (some (AI.hostile [])) 0
          (0 : Fin 8)).engine.game_map.entities.length =
        confusedEngine.game_map.entities.length ∧
      (confusedPerform confusedEngine 0 (some (AI.hostile [])) 0
          (0 : Fin 8)).engine.log = confusedEngine.log + 1) :=
  ⟨rfl, rfl,
   (C7_confused_enemy confusedEngine 0 confusedActor
     (some (AI.hostile [])) 0 [] (0 : Fin 8) rfl rfl).2.1⟩

/-! ### Lemmas: the pickup scan -/

theorem findCoItem_none (es : List Entity) (x y : Int) :
    findCoItem es x y = none ↔
      ∀ e ∈ es, ∀ it : ItemE, e = Entity.item it →
        ¬(it.x = x ∧ it.y = y) := by
  induction es with
  | nil => simp [findCoItem]
  | cons e rest ih =>
    cases e with
    | actor b =>
      simp only [findCoItem, Option.map_eq_none', ih]
      constructor
      · intro h e he it hit
        subst hit
        rcases List.mem_cons.mp he with he1 | he2
        · simp at he1
        · exact h _ he2 it rfl
      · intro h e he it hit
        exact h e (List.mem_cons_of_mem _ he) it hit
    | item j =>
      by_cases hj : j.x = x ∧ j.y = y
      · simp only [findCoItem, if_pos hj]
        constructor
        · intro h; exact absurd h (by simp)
        · intro h
          exact absurd hj (h (Entity.item j) (by simp) j rfl)
      · simp only [findCoItem, if_neg hj, Option.map_eq_none', ih]
        constructor
        · intro h e he it hit
          rcases List.mem_cons.mp he with he1 | he2
          · rw [he1] at hit
            cases hit
            exact hj
          · exact h e he2 it hit
        · intro h e he it hit
          exact h e (List.mem_cons_of_mem _ he) it hit

theorem findCoItem_some (es : List Entity) (x y : Int) :
    ∀ (i : Nat) (it : ItemE), findCoItem es x y = some (i, it) →
      es[i]? = some (Entity.item it) ∧ it.x = x ∧ it.y = y := by
  induction es with
  | nil => intro i it h; simp [findCoItem] at h
  | cons e rest ih =>
    intro i it h
    cases e with
    | actor b =>
      simp only [findCoItem] at h
      cases hrec : findCoItem rest x y with
      | none => rw [hrec] at h; simp at h
      | some p =>
        rw [hrec] at h
        simp only [Option.map_some'] at h
        cases h
        have := ih p.1 p.2 (by rw [hrec])
        simpa using this
    | item j =>
      by_cases hj : j.x = x ∧ j.y = y
      · simp only [findCoItem, if_pos hj] at h
        cases h
        simpa using hj
      · simp only [findCoItem, if_neg hj] at h
        cases hrec : findCoItem rest x y with
        | none => rw [hrec] at h; simp at h
        | some p =>
          rw [hrec] at h
          simp only [Option.map_some'] at h
          cases h
          have := ih p.1 p.2 (by rw [hrec])
          simpa using this

theorem countItem_eraseIdx (es : List Entity) :
    ∀ (i : Nat) (it : ItemE), es[i]? = some (Entity.item it) →
      countItem (es.eraseIdx i) it + 1 = countItem es it := by
  induction es with
  | nil => intro i it h; simp at h
  | cons e rest ih =>
    intro i it h
    cases i with
    | zero =>
      simp only [List.getElem?_cons_zero, Option.some.injEq] at h
      subst h
      simp [List.eraseIdx, countItem, List.countP_cons]
    | succ n =>
      simp only [List.getElem?_cons_succ] at h
      have := ih n it h
      simp only [List.eraseIdx, countItem, List.countP_cons] at this ⊢
      omega

theorem countItem_modifyEnts (es : List Entity) (eid : Nat)
    (f : ActorE → ActorE) (it : ItemE) :
    countItem (modifyEnts es eid f) it = countItem es it := by
  induction es with
  | nil => rfl
  | cons e rest ih =>
    cases e with
    | item j => simp [modifyEnts, countItem, List.countP_cons] at ih ⊢; omega
    | actor b =>
      by_cases hb : b.eid = eid <;>
        simp [modifyEnts, countItem, List.countP_cons, hb] at ih ⊢ <;>
        omega

theorem findActorL_eraseIdx_item (es : List Entity) :
    ∀ (i : Nat) (it : ItemE) (eid : Nat),
      es[i]? = some (Entity.item it) →
      findActorL (es.eraseIdx i) eid = findActorL es eid := by
  induction es with
  | nil => intro i it eid h; simp at h
  | cons e rest ih =>
    intro i it eid h
    cases i with
    | zero =>
      simp only [List.getElem?_cons_zero, Option.some.injEq] at h
      subst h
      simp [List.eraseIdx, findActorL]
    | succ n =>
      simp only [List.getElem?_cons_succ] at h
      cases e with
      | actor b =>
        by_cases hb : b.eid = eid <;>
          simp [List.eraseIdx, findActorL, hb, ih n it eid h]
      | item j => simp [List.eraseIdx, findActorL, ih n it eid h]

/-- Claim C5: PickupAction raises Impossible("There is nothing here to
pick up.") when no Item shares the actor's coordinates, raises
Impossible("Your inventory is full.") when one does but the inventory
is at or above capacity — in both failure cases mutating nothing — and
otherwise removes exactly the first co-located item from the entity set
and appends it to the inventory, which therefore never exceeds
capacity. -/
theorem C5_pickup (en : Engine) (aeid : Nat) (a : ActorE)
    (ha : en.findActor aeid = some a) :
    (findCoItem en.game_map.entities a.x a.y = none ↔
      ∀ e ∈ en.game_map.entities, ∀ it : ItemE, e = Entity.item it →
        ¬(it.x = a.x ∧ it.y = a.y)) ∧
    (findCoItem en.game_map.entities a.x a.y = none →
      pickupPerform en aeid =
        ⟨en, some "There is nothing here to pick up."⟩) ∧
    (∀ i it, findCoItem en.game_map.entities a.x a.y = some (i, it) →
      ((a.inventory.length : Int) ≥ a.capacity →
        pickupPerform en aeid = ⟨en, some "Your inventory is full."⟩) ∧
      ((a.inventory.length : Int) < a.capacity →
        (pickupPerform en aeid).err = none ∧
        it.x = a.x ∧ it.y = a.y ∧
        (∃ a1, (pickupPerform en aeid).engine.findActor aeid = some a1 ∧
          a1.inventory = a.inventory ++ [it] ∧
          (a1.inventory.length : Int) ≤ a.capacity) ∧
        (pickupPerform en aeid).engine.game_map.entities.length + 1 =
          en.game_map.entities.length ∧
        countItem (pickupPerform en aeid).engine.game_map.entities it + 1 =
          countItem en.game_map.entities it ∧
        (pickupPerform en aeid).engine.log = en.log + 1)) := by
  refine ⟨findCoItem_none _ _ _, ?_, ?_⟩
  · intro hnone
    simp [pickupPerform, ha, hnone]
  · intro i it hfind
    have hspec := findCoItem_some en.game_map.entities a.x a.y i it hfind
    constructor
    · intro hfull
      simp [pickupPerform, ha, hfind, hfull]
    · intro hlt
      have hnotfull : ¬ (a.inventory.length : Int) ≥ a.capacity := by omega
      simp only [pickupPerform, ha, hfind, if_neg hnotfull]
      have hilen : i < en.game_map.entities.length :=
        (List.getElem?_eq_some.mp hspec.1).1
      refine ⟨by trivial, hspec.2.1, hspec.2.2, ?_, ?_, ?_, by trivial⟩
      · refine ⟨{ a with inventory := a.inventory ++ [it] }, ?_, rfl, ?_⟩
        · show (Engine.modifyActor _ aeid _).findActor aeid = _
          refine findActor_modify_self _ aeid _ a (fun b => rfl) ?_
          show findActorL (en.game_map.entities.eraseIdx i) aeid = some a
          rw [findActorL_eraseIdx_item en.game_map.entities i it aeid
            hspec.1]
          exact ha
        · simp only [List.length_append, List.length_singleton]
          push_cast
          omega
      · show (modifyEnts (en.game_map.entities.eraseIdx i) aeid _).length + 1
          = en.game_map.entities.length
        rw [modifyEnts_length]
        exact List.length_eraseIdx_add_one hilen
      · show countItem (modifyEnts (en.game_map.entities.eraseIdx i) aeid _)
          it + 1 = countItem en.game_map.entities it
        rw [countItem_modifyEnts]
        exact countItem_eraseIdx en.game_map.entities i it hspec.1

theorem C5_pickup_witness :
    pickupEngine.findActor 0 = some pickupActor ∧
    findCoItem pickupEngine.game_map.entities pickupActor.x pickupActor.y =
      some (1, groundPotion) ∧
    ((pickupActor.inventory.length : Int) ≥ pickupActor.capacity) ∧
    pickupPerform pickupEngine 0 =
      ⟨pickupEngine, some "Your inventory is full."⟩ :=
  ⟨rfl, rfl, by decide,
   ((C5_pickup pickupEngine 0 pickupActor rfl).2.2 1 groundPotion rfl).1
     (by decide)⟩

/-! ### Lemmas: the damage pipeline (hp setter, die, xp award) -/

theorem sameButLevel_refl (b : ActorE) : SameButLevel b b :=
  ⟨rfl, rfl, rfl, rfl, rfl, rfl, rfl, rfl, rfl, rfl⟩

theorem sameButLevel_trans (a b c : ActorE) (h1 : SameButLevel a b)
    (h2 : SameButLevel b c) : SameButLevel a c := by
  obtain ⟨e1, x1, y1, b1, r1, i1, f1, q1, c1, v1⟩ := h1
  obtain ⟨e2, x2, y2, b2, r2, i2, f2, q2, c2, v2⟩ := h2
  exact ⟨e2.trans e1, x2.trans x1, y2.trans y1, b2.trans b1, r2.trans r1,
    i2.trans i1, f2.trans f1, q2.trans q1, c2.trans c1, v2.trans v1⟩

theorem findActor_modify_none (en : Engine) (eid j : Nat)
    (f : ActorE → ActorE) (hEid : ∀ b, (f b).eid = b.eid)
    (h : en.findActor j = none) :
    (en.modifyActor eid f).findActor j = none := by
  have hm := findActorL_modify en.game_map.entities eid j f hEid
  simp only [Engine.findActor, Engine.modifyActor] at h ⊢
  rw [hm, h]
  rfl

theorem findActorL_of_mem (es : List Entity) (t : ActorE)
    (hnd : (es.map Entity.eid).Nodup) (hmem : Entity.actor t ∈ es) :
    findActorL es t.eid = some t := by
  induction es with
  | nil => simp at hmem
  | cons e rest ih =>
    simp only [List.map_cons, List.nodup_cons] at hnd
    rcases List.mem_cons.mp hmem with he | he
    · subst he
      simp [findActorL]
    · cases e with
      | actor b =>
        by_cases hb : b.eid = t.eid
        · exfalso
          apply hnd.1
          show b.eid ∈ rest.map Entity.eid
          rw [hb]
          exact List.mem_map_of_mem Entity.eid he
        · simp [findActorL, hb, ih hnd.2 he]
      | item i => simp [findActorL, ih hnd.2 he]

theorem findActor_of_mem (en : Engine) (t : ActorE) (hnd : EidsNodup en)
    (hmem : Entity.actor t ∈ en.game_map.entities) :
    en.findActor t.eid = some t :=
  findActorL_of_mem en.game_map.entities t hnd hmem

theorem player_add_xp_findActor (en : Engine) (xp : Int) (j : Nat)
    (b : ActorE) (hb : en.findActor j = some b) :
    ∃ b1, (en.player_add_xp xp).findActor j = some b1 ∧
      SameButLevel b b1 := by
  cases hp : en.player? with
  | none =>
    simp only [Engine.player_add_xp, hp]
    exact ⟨b, hb, sameButLevel_refl b⟩
  | some p =>
    simp only [Engine.player_add_xp, hp]
    by_cases hz : xp = 0 ∨ p.level.level_up_base = 0
    · rw [if_pos hz]
      exact ⟨b, hb, sameButLevel_refl b⟩
    · rw [if_neg hz]
      have hpe : p.eid = en.player_eid := findActorL_eid _ _ _ hp
      by_cases hj : j = p.eid
      · have hbp : b = p := by
          rw [hj, hpe] at hb
          exact Option.some.inj (hb.symm.trans hp)
        subst hbp
        subst hj
        have h1 := findActor_modify_self en b.eid
          (fun c => { c with level :=
            { c.level with current_xp := c.level.current_xp + xp } })
          b (fun c => rfl) (hpe ▸ hp)
        refine ⟨{ b with level := { b.level with
            current_xp := b.level.current_xp + xp } }, ?_, ?_⟩
        · split <;> exact h1
        · exact ⟨rfl, rfl, rfl, rfl, rfl, rfl, rfl, rfl, rfl, rfl⟩
      · have h1 := findActor_modify_other en p.eid j
          (fun c => { c with level :=
            { c.level with current_xp := c.level.current_xp + xp } })
          (fun c => rfl) hj
        refine ⟨b, ?_, sameButLevel_refl b⟩
        split <;> exact h1.trans hb

theorem player_add_xp_findActor_none (en : Engine) (xp : Int) (j : Nat)
    (hb : en.findActor j = none) :
    (en.player_add_xp xp).findActor j = none := by
  cases hp : en.player? with
  | none => simp only [Engine.player_add_xp, hp]; exact hb
  | some p =>
    simp only [Engine.player_add_xp, hp]
    by_cases hz : xp = 0 ∨ p.level.level_up_base = 0
    · rw [if_pos hz]; exact hb
    · rw [if_neg hz]
      have h1 := findActor_modify_none en p.eid j
        (fun c => { c with level :=
          { c.level with current_xp := c.level.current_xp + xp } })
        (fun c => rfl) hb
      split <;> exact h1

theorem die_spec (en : Engine) (eid : Nat) (b : ActorE)
    (hb : en.findActor eid = some b) :
    ∃ b1, (en.die eid).findActor eid = some b1 ∧
      b1.eid = b.eid ∧ b1.x = b.x ∧ b1.y = b.y ∧
      b1.equipment = b.equipment ∧ b1.capacity = b.capacity ∧
      b1.inventory = b.inventory ∧ b1.fighter = b.fighter ∧
      deadCorpse b1 := by
  simp only [Engine.die, hb]
  have h2 := findActor_modify_self en eid
    (fun c => { c with blocks_movement := false, ai := none,
                       render_order := RenderOrder.CORPSE })
    b (fun c => rfl) hb
  obtain ⟨b1, hb1, e1, x1, y1, bl1, r1, a1, f1, q1, c1, v1⟩ :=
    player_add_xp_findActor ((en.modifyActor eid fun c =>
      { c with blocks_movement := false, ai := none,
               render_order := RenderOrder.CORPSE }).add_message)
      b.level.xp_given eid _ h2
  exact ⟨b1, hb1, by simp [e1], by simp [x1], by simp [y1],
    by simp [q1], by simp [c1], by simp [v1], by simp [f1],
    by simp [a1], by simp [bl1], by simp [r1]⟩

theorem set_hp_spec (en : Engine) (eid : Nat) (value : Int) (b : ActorE)
    (hb : en.findActor eid = some b) :
    ∃ b1, (en.set_hp eid value).findActor eid = some b1 ∧
      b1.eid = b.eid ∧ b1.x = b.x ∧ b1.y = b.y ∧
      b1.equipment = b.equipment ∧ b1.capacity = b.capacity ∧
      b1.inventory = b.inventory ∧
      b1.fighter = b.fighter.setHp value ∧
      ((b.fighter.clamped value = 0 ∧ b.ai.isSome = true) →
        deadCorpse b1) ∧
      (¬(b.fighter.clamped value = 0 ∧ b.ai.isSome = true) →
        b1.ai = b.ai ∧ b1.blocks_movement = b.blocks_movement ∧
        b1.render_order = b.render_order ∧
        (en.set_hp eid value).log = en.log) := by
  simp only [Engine.set_hp, hb]
  by_cases hd : b.fighter.clamped value = 0 ∧ b.ai.isSome = true
  · rw [if_pos hd]
    have h1 := findActor_modify_self en eid
      (fun c => { c with fighter := c.fighter.setHp value }) b
      (fun c => rfl) hb
    obtain ⟨b1, hb1, e1, x1, y1, q1, c1, v1, f1, hdc⟩ :=
      die_spec (en.modifyActor eid fun c =>
        { c with fighter := c.fighter.setHp value }) eid _ h1
    refine ⟨b1, hb1, by simp [e1], by simp [x1], by simp [y1],
      by simp [q1], by simp [c1], by simp [v1], by simp [f1],
      fun _ => hdc, fun hc => absurd hd hc⟩
  · rw [if_neg hd]
    have h1 := findActor_modify_self en eid
      (fun c => { c with fighter := c.fighter.setHp value }) b
      (fun c => rfl) hb
    exact ⟨_, h1, rfl, rfl, rfl, rfl, rfl, rfl, rfl,
      fun hc => absurd hc hd, fun _ => ⟨rfl, rfl, rfl, rfl⟩⟩

/-- Claim C4: MeleeAction raises Impossible exactly when no living
actor occupies the destination tile; otherwise damage = attacker
effective power − defender effective defense is subtracted from the
defender's hp (through the clamping setter, triggering death at 0) only
when damage > 0, and a no-damage message is logged without raising and
without any hp change when damage ≤ 0; in the non-lethal damage case
exactly one message is logged. -/
theorem C4_melee (en : Engine) (aeid : Nat) (att : ActorE) (dx dy : Int)
    (ha : en.findActor aeid = some att) (hnd : EidsNodup en) :
    ((meleePerform en aeid dx dy).err.isSome ↔
      en.game_map.get_actor_at_location (att.x + dx) (att.y + dy) = none) ∧
    (en.game_map.get_actor_at_location (att.x + dx) (att.y + dy) = none →
      meleePerform en aeid dx dy = ⟨en, some "Nothing to attack"⟩) ∧
    (∀ target, en.game_map.get_actor_at_location (att.x + dx) (att.y + dy) =
        some target →
      (att.power - target.defense ≤ 0 →
        meleePerform en aeid dx dy = ⟨en.add_message, none⟩) ∧
      (0 < att.power - target.defense →
        (meleePerform en aeid dx dy).err = none ∧
        ∃ t1, (meleePerform en aeid dx dy).engine.findActor target.eid =
            some t1 ∧
          t1.fighter = target.fighter.setHp
            (target.fighter.hp - (att.power - target.defense)) ∧
          (target.fighter.clamped
              (target.fighter.hp - (att.power - target.defense)) = 0 →
            deadCorpse t1) ∧
          (target.fighter.clamped
              (target.fighter.hp - (att.power - target.defense)) ≠ 0 →
            t1.ai = target.ai ∧
            t1.blocks_movement = target.blocks_movement ∧
            t1.render_order = target.render_order ∧
            (meleePerform en aeid dx dy).engine.log = en.log + 1))) := by
  refine ⟨?_, ?_, ?_⟩
  · cases htgt : en.game_map.get_actor_at_location (att.x + dx)
        (att.y + dy) with
    | none => simp [meleePerform, ha, htgt]
    | some target =>
      by_cases hdmg : att.power - target.defense > 0 <;>
        simp [meleePerform, ha, htgt, hdmg]
  · intro htgt
    simp [meleePerform, ha, htgt]
  · intro target htgt
    have hspec := get_actor_at_spec _ _ _ _ htgt
    have hai : target.ai.isSome = true := hspec.2.1
    constructor
    · intro hle
      have : ¬ (att.power - target.defense > 0) := by omega
      simp [meleePerform, ha, htgt, this]
    · intro hdmg
      simp only [meleePerform, ha, htgt, if_pos hdmg]
      have hfind : (en.add_message).findActor target.eid = some target :=
        findActor_of_mem en target hnd hspec.1
      obtain ⟨t1, ht1, e1, x1, y1, q1, c1, v1, f1, hdead, hlive⟩ :=
        set_hp_spec (en.add_message) target.eid
          (target.fighter.hp - (att.power - target.defense)) target hfind
      refine ⟨by trivial, t1, ht1, f1, fun hz => hdead ⟨hz, hai⟩,
        fun hz => ?_⟩
      have hcond : ¬(target.fighter.clamped
          (target.fighter.hp - (att.power - target.defense)) = 0 ∧
          target.ai.isSome = true) := by
        intro hc
        exact hz hc.1
      obtain ⟨ha1, hb1, hr1, hl1⟩ := hlive hcond
      exact ⟨ha1, hb1, hr1, hl1⟩

theorem C4_melee_witness :
    meleeEngine.findActor 0 = some meleeAttacker ∧
    EidsNodup meleeEngine ∧
    meleeEngine.game_map.get_actor_at_location (meleeAttacker.x + 1)
      (meleeAttacker.y + 0) = some meleeDefender ∧
    (0 : Int) < meleeAttacker.power - meleeDefender.defense ∧
    ((meleePerform meleeEngine 0 1 0).err = none ∧
      ∃ t1, (meleePerform meleeEngine 0 1 0).engine.findActor
          meleeDefender.eid = some t1 ∧
        t1.fighter = meleeDefender.fighter.setHp
          (meleeDefender.fighter.hp -
            (meleeAttacker.power - meleeDefender.defense)) ∧
        (meleeDefender.fighter.clamped (meleeDefender.fighter.hp -
            (meleeAttacker.power - meleeDefender.defense)) = 0 →
          deadCorpse t1) ∧
        (meleeDefender.fighter.clamped (meleeDefender.fighter.hp -
            (meleeAttacker.power - meleeDefender.defense)) ≠ 0 →
          t1.ai = meleeDefender.ai ∧
          t1.blocks_movement = meleeDefender.blocks_movement ∧
          t1.render_order = meleeDefender.render_order ∧
          (meleePerform meleeEngine 0 1 0).engine.log =
            meleeEngine.log + 1)) ∧
    hpOf (meleePerform meleeEngine 0 1 0).engine 1 = some 5 ∧
    (meleePerform meleeEngine 0 1 0).engine.log = meleeEngine.log + 1 :=
  ⟨rfl, by decide, rfl, by decide,
   ((C4_melee meleeEngine 0 meleeAttacker 1 0 rfl (by decide)).2.2
     meleeDefender rfl).2 (by decide),
   by decide, by decide⟩

/-! ### Lemmas: effects on bystander actors and inventories -/

theorem eraseFirstEid_length (l : List ItemE) (eid : Nat)
    (h : eid ∈ l.map ItemE.eid) :
    (eraseFirstEid l eid).length + 1 = l.length := by
  induction l with
  | nil => simp at h
  | cons it rest ih =>
    by_cases hit : it.eid = eid
    · simp [eraseFirstEid, hit]
    · have h2 : eid ∈ rest.map ItemE.eid := by
        rcases List.mem_map.mp h with ⟨j, hj, hje⟩
        rcases List.mem_cons.mp hj with rfl | hj2
        · exact absurd hje hit
        · exact hje ▸ List.mem_map_of_mem ItemE.eid hj2
      have h3 := ih h2
      simp only [eraseFirstEid, if_neg hit, List.length_cons]
      omega

theorem die_other (en : Engine) (eid j : Nat) (hne : j ≠ eid)
    (b : ActorE) (hb : en.findActor j = some b) :
    ∃ b1, (en.die eid).findActor j = some b1 ∧ SameButLevel b b1 := by
  simp only [Engine.die]
  cases hfa : en.findActor eid with
  | none => exact ⟨b, hb, sameButLevel_refl b⟩
  | some a =>
    have h1 := (findActor_modify_other en eid j
      (fun c => { c with blocks_movement := false, ai := none,
                         render_order := RenderOrder.CORPSE })
      (fun c => rfl) hne).trans hb
    exact player_add_xp_findActor _ a.level.xp_given j b h1

theorem set_hp_other (en : Engine) (eid : Nat) (value : Int) (j : Nat)
    (hne : j ≠ eid) (b : ActorE) (hb : en.findActor j = some b) :
    ∃ b1, (en.set_hp eid value).findActor j = some b1 ∧
      SameButLevel b b1 := by
  cases hfa : en.findActor eid with
  | none =>
    simp only [Engine.set_hp, hfa]
    exact ⟨b, hb, sameButLevel_refl b⟩
  | some a =>
    simp only [Engine.set_hp, hfa]
    have h1 := (findActor_modify_other en eid j
      (fun c => { c with fighter := c.fighter.setHp value })
      (fun c => rfl) hne).trans hb
    by_cases hd : a.fighter.clamped value = 0 ∧ a.ai.isSome = true
    · rw [if_pos hd]
      exact die_other _ eid j hne b h1
    · rw [if_neg hd]
      exact ⟨b, h1, sameButLevel_refl b⟩

/-! ### Lemmas: the lightning nearest-target scan -/

theorem lightningStep_le (m : GameMap) (cx cy : Int) (cid : Nat)
    (acc : Option ActorE × Int) (a : ActorE) :
    (lightningStep m cx cy cid acc a).2 ≤ acc.2 := by
  simp only [lightningStep]
  split_ifs with h1 h2
  · simp
    omega
  · exact le_refl _
  · exact le_refl _

theorem lightningFold_le (m : GameMap) (cx cy : Int) (cid : Nat)
    (l : List ActorE) :
    ∀ acc, (l.foldl (lightningStep m cx cy cid) acc).2 ≤ acc.2 := by
  induction l with
  | nil => intro acc; exact le_refl _
  | cons b rest ih =>
    intro acc
    calc (List.foldl (lightningStep m cx cy cid)
          (lightningStep m cx cy cid acc b) rest).2
        ≤ (lightningStep m cx cy cid acc b).2 := ih _
      _ ≤ acc.2 := lightningStep_le m cx cy cid acc b

theorem lightningFold_min (m : GameMap) (cx cy : Int) (cid : Nat)
    (l : List ActorE) :
    ∀ acc, ∀ a ∈ l, a.eid ≠ cid → m.visible a.x a.y = true →
      (l.foldl (lightningStep m cx cy cid) acc).2 ≤
        dist2 cx cy a.x a.y := by
  induction l with
  | nil => simp
  | cons b rest ih =>
    intro acc a hmem hne hvis
    rcases List.mem_cons.mp hmem with rfl | hmem2
    · have h1 : (List.foldl (lightningStep m cx cy cid)
          (lightningStep m cx cy cid acc a) rest).2 ≤
          (lightningStep m cx cy cid acc a).2 := lightningFold_le m cx cy cid rest _
      have h2 : (lightningStep m cx cy cid acc a).2 ≤
          dist2 cx cy a.x a.y := by
        simp only [lightningStep, if_pos (And.intro hne hvis)]
        split_ifs with hlt
        · exact le_refl _
        · omega
      exact le_trans h1 h2
    · exact ih (lightningStep m cx cy cid acc b) a hmem2 hne hvis

theorem lightningFold_some (m : GameMap) (cx cy : Int) (cid : Nat)
    (l : List ActorE) :
    ∀ acc t, acc.1 = some t →
      ((l.foldl (lightningStep m cx cy cid) acc).1).isSome = true := by
  induction l with
  | nil => intro acc t h; simp [h]
  | cons b rest ih =>
    intro acc t h
    simp only [List.foldl_cons]
    by_cases hc : b.eid ≠ cid ∧ m.visible b.x b.y = true
    · by_cases hd : dist2 cx cy b.x b.y < acc.2
      · have hstep : lightningStep m cx cy cid acc b =
            (some b, dist2 cx cy b.x b.y) := by
          simp [lightningStep, hc, hd]
        rw [hstep]
        exact ih _ b rfl
      · have hstep : lightningStep m cx cy cid acc b = acc := by
          simp [lightningStep, hc, hd]
        rw [hstep]
        exact ih acc t h
    · have hstep : lightningStep m cx cy cid acc b = acc := by
        simp only [lightningStep, if_neg hc]
      rw [hstep]
      exact ih acc t h

theorem lightningFold_none_iff (m : GameMap) (cx cy : Int) (cid : Nat)
    (R : Int) (l : List ActorE) :
    ((l.foldl (lightningStep m cx cy cid) ((none : Option ActorE),
        (R + 1) ^ 2)).1 = none) ↔
      ∀ a ∈ l, ¬(a.eid ≠ cid ∧ m.visible a.x a.y = true ∧
        dist2 cx cy a.x a.y < (R + 1) ^ 2) := by
  induction l with
  | nil => simp
  | cons b rest ih =>
    simp only [List.foldl_cons]
    by_cases hc : b.eid ≠ cid ∧ m.visible b.x b.y = true
    · by_cases hd : dist2 cx cy b.x b.y < (R + 1) ^ 2
      · have hstep : lightningStep m cx cy cid
            ((none : Option ActorE), (R + 1) ^ 2) b =
            (some b, dist2 cx cy b.x b.y) := by
          simp [lightningStep, hc, hd]
        rw [hstep]
        constructor
        · intro hnone
          have := lightningFold_some m cx cy cid rest
            (some b, dist2 cx cy b.x b.y) b rfl
          rw [hnone] at this
          simp at this
        · intro hall
          exact absurd ⟨hc.1, hc.2, hd⟩ (hall b (by simp))
      · have hstep : lightningStep m cx cy cid
            ((none : Option ActorE), (R + 1) ^ 2) b =
            ((none : Option ActorE), (R + 1) ^ 2) := by
          simp [lightningStep, hc, hd]
        rw [hstep, ih]
        constructor
        · intro hall a hmem
          rcases List.mem_cons.mp hmem with rfl | hmem2
          · intro hcon
            exact hd hcon.2.2
          · exact hall a hmem2
        · intro hall a hmem
          exact hall a (List.mem_cons_of_mem _ hmem)
    · have hstep : lightningStep m cx cy cid
          ((none : Option ActorE), (R + 1) ^ 2) b =
          ((none : Option ActorE), (R + 1) ^ 2) := by
        simp only [lightningStep, if_neg hc]
      rw [hstep, ih]
      constructor
      · intro hall a hmem
        rcases List.mem_cons.mp hmem with rfl | hmem2
        · intro hcon
          exact hc ⟨hcon.1, hcon.2.1⟩
        · exact hall a hmem2
      · intro hall a hmem
        exact hall a (List.mem_cons_of_mem _ hmem)

theorem lightningFold_sel (m : GameMap) (cx cy : Int) (cid : Nat)
    (l : List ActorE) :
    ∀ acc, l.foldl (lightningStep m cx cy cid) acc = acc ∨
      (∃ t, (l.foldl (lightningStep m cx cy cid) acc).1 = some t ∧
        t ∈ l ∧ t.eid ≠ cid ∧ m.visible t.x t.y = true ∧
        (l.foldl (lightningStep m cx cy cid) acc).2 =
          dist2 cx cy t.x t.y ∧
        dist2 cx cy t.x t.y < acc.2) := by
  induction l with
  | nil => intro acc; exact Or.inl rfl
  | cons b rest ih =>
    intro acc
    simp only [List.foldl_cons]
    by_cases hc : b.eid ≠ cid ∧ m.visible b.x b.y = true
    · by_cases hd : dist2 cx cy b.x b.y < acc.2
      · have hstep : lightningStep m cx cy cid acc b =
            (some b, dist2 cx cy b.x b.y) := by
          simp [lightningStep, hc, hd]
        rw [hstep]
        rcases ih (some b, dist2 cx cy b.x b.y) with heq |
          ⟨t, h1, h2, h3, h4, h5, h6⟩
        · right
          refine ⟨b, ?_, by simp, hc.1, hc.2, ?_, hd⟩
          · rw [heq]
          · rw [heq]
        · right
          refine ⟨t, h1, List.mem_cons_of_mem _ h2, h3, h4, h5, ?_⟩
          simp only at h6
          omega
      · have hstep : lightningStep m cx cy cid acc b = acc := by
          simp [lightningStep, hc, hd]
        rw [hstep]
        rcases ih acc with heq | ⟨t, h1, h2, h3, h4, h5, h6⟩
        · exact Or.inl heq
        · exact Or.inr ⟨t, h1, List.mem_cons_of_mem _ h2, h3, h4, h5, h6⟩
    · have hstep : lightningStep m cx cy cid acc b = acc := by
        simp only [lightningStep, if_neg hc]
      rw [hstep]
      rcases ih acc with heq | ⟨t, h1, h2, h3, h4, h5, h6⟩
      · exact Or.inl heq
      · exact Or.inr ⟨t, h1, List.mem_cons_of_mem _ h2, h3, h4, h5, h6⟩

/-- Claim C3 counterexample: with maximum_range 5, consumer at (0,0)
and the only other visible actor at (5,1) — Euclidean distance √26 ≈
5.099, which exceeds the maximum range — the activation succeeds and
strikes that actor (hp 10 → 6) and consumes the scroll, because the
source accepts any distance strictly below maximum_range + 1.0.  So
the claim as stated (struck target within the maximum range; Impossible
when no actor is within the maximum range) is false on the code. -/
theorem C3_lightning_range_counterexample :
    (itemActionPerform zapEngine 0 50 (0, 0)).err = none ∧
    hpOf (itemActionPerform zapEngine 0 50 (0, 0)).engine 1 = some 6 ∧
    invLenOf (itemActionPerform zapEngine 0 50 (0, 0)).engine 0 = some 0 ∧
    dist2 zapConsumer.x zapConsumer.y zapTarget.x zapTarget.y > 5 ^ 2 :=
  ⟨rfl, rfl, rfl, by decide⟩

/-- Claim C3 (amended): a successful lightning activation strikes a
living actor other than the consumer standing on a currently visible
tile, at minimal Euclidean distance among all such actors, and its
distance is strictly less than maximum_range + 1 (squared distances
compared, which is exact for square roots); the target's hp is written
through the clamping setter and the scroll is removed from the
consumer's inventory exactly once.  If no other visible actor lies
strictly within maximum_range + 1, activation raises Impossible and
changes nothing. -/
theorem C3_lightning_nearest_amended (en : Engine) (consumer : ActorE)
    (item_eid : Nat) (damage R : Int) (hR : 0 ≤ R)
    (hc : en.findActor consumer.eid = some consumer)
    (hnd : EidsNodup en)
    (hitem : item_eid ∈ consumer.inventory.map ItemE.eid) :
    ((∀ a ∈ en.game_map.actorsList, ¬(a.eid ≠ consumer.eid ∧
        en.game_map.visible a.x a.y = true ∧
        dist2 consumer.x consumer.y a.x a.y < (R + 1) ^ 2)) →
      lightningActivate en consumer item_eid damage R =
        ⟨en, some "No enemy is close enough to strike."⟩) ∧
    ((lightningActivate en consumer item_eid damage R).err = none →
      ∃ t, t ∈ en.game_map.actorsList ∧ t.eid ≠ consumer.eid ∧
        en.game_map.visible t.x t.y = true ∧
        dist2 consumer.x consumer.y t.x t.y < (R + 1) ^ 2 ∧
        (∀ a ∈ en.game_map.actorsList, a.eid ≠ consumer.eid →
          en.game_map.visible a.x a.y = true →
          dist2 consumer.x consumer.y t.x t.y ≤
            dist2 consumer.x consumer.y a.x a.y) ∧
        (∃ t1, (lightningActivate en consumer item_eid damage
            R).engine.findActor t.eid = some t1 ∧
          t1.fighter = t.fighter.setHp (t.fighter.hp - damage)) ∧
        (∃ c1, (lightningActivate en consumer item_eid damage
            R).engine.findActor consumer.eid = some c1 ∧
          c1.inventory = eraseFirstEid consumer.inventory item_eid ∧
          c1.inventory.length + 1 = consumer.inventory.length)) ∧
    (∀ msg, (lightningActivate en consumer item_eid damage R).err =
        some msg →
      msg = "No enemy is close enough to strike." ∧
      (lightningActivate en consumer item_eid damage R).engine = en) := by
  refine ⟨?_, ?_, ?_⟩
  · intro hall
    have hnone : (lightningSelect en.game_map consumer.x consumer.y
        consumer.eid R).1 = none :=
      (lightningFold_none_iff en.game_map consumer.x consumer.y
        consumer.eid R en.game_map.actorsList).mpr hall
    simp [lightningActivate, lightningSelect] at hnone ⊢
    rw [hnone]
  · intro herr
    cases hsel : (lightningSelect en.game_map consumer.x consumer.y
        consumer.eid R).1 with
    | none =>
      exfalso
      simp only [lightningActivate] at herr
      rw [hsel] at herr
      simp at herr
    | some t =>
      rcases lightningFold_sel en.game_map consumer.x consumer.y
          consumer.eid en.game_map.actorsList
          ((none : Option ActorE), (R + 1) ^ 2) with heq |
          ⟨t', h1, h2, h3, h4, h5, h6⟩
      · exfalso
        simp only [lightningSelect] at hsel
        rw [heq] at hsel
        simp at hsel
      · have ht : t' = t := by
          simp only [lightningSelect] at hsel
          rw [h1] at hsel
          exact Option.some.inj hsel
        subst ht
        simp only at h6
        have htmem := actorsList_mem en.game_map t' h2
        have htfind : (en.add_message).findActor t'.eid = some t' :=
          findActor_of_mem en t' hnd htmem.1
        refine ⟨t', h2, h3, h4, h6, ?_, ?_, ?_⟩
        · intro a hmem hne hvis
          have hmin := lightningFold_min en.game_map consumer.x consumer.y
            consumer.eid en.game_map.actorsList
            ((none : Option ActorE), (R + 1) ^ 2) a hmem hne hvis
          rw [h5] at hmin
          exact hmin
        · simp only [lightningActivate]
          rw [hsel]
          simp only [Engine.take_damage, htfind]
          obtain ⟨t1, ht1, _, _, _, _, _, _, f1, _, _⟩ :=
            set_hp_spec (en.add_message) t'.eid
              (t'.fighter.hp - damage) t' htfind
          refine ⟨t1, ?_, f1⟩
          simp only [Engine.consumeItem]
          exact (findActor_modify_other _ consumer.eid t'.eid
            (fun b => { b with
              inventory := eraseFirstEid b.inventory item_eid })
            (fun c => rfl) h3).trans ht1
        · simp only [lightningActivate]
          rw [hsel]
          simp only [Engine.take_damage, htfind]
          simp only [Engine.consumeItem]
          obtain ⟨c', hc', hsame⟩ := set_hp_other (en.add_message)
            t'.eid (t'.fighter.hp - damage) consumer.eid
            (fun he => h3 he.symm) consumer hc
          have hfinal := findActor_modify_self
            ((en.add_message).set_hp t'.eid (t'.fighter.hp - damage))
            consumer.eid
            (fun b => { b with
              inventory := eraseFirstEid b.inventory item_eid })
            c' (fun c => rfl) hc'
          refine ⟨_, hfinal, ?_, ?_⟩
          · show eraseFirstEid c'.inventory item_eid =
              eraseFirstEid consumer.inventory item_eid
            rw [hsame.2.2.2.2.2.2.2.2.2]
          · show (eraseFirstEid c'.inventory item_eid).length + 1 =
              consumer.inventory.length
            rw [hsame.2.2.2.2.2.2.2.2.2]
            exact eraseFirstEid_length consumer.inventory item_eid hitem
  · intro msg herr
    cases hsel : (lightningSelect en.game_map consumer.x consumer.y
        consumer.eid R).1 with
    | some t =>
      exfalso
      simp only [lightningActivate] at herr
      rw [hsel] at herr
      simp at herr
    | none =>
      simp only [lightningActivate] at herr ⊢
      rw [hsel] at herr ⊢
      simp at herr
      exact ⟨herr.symm, rfl⟩

theorem C3_lightning_nearest_witness :
    (0 : Int) ≤ 5 ∧
    zapEngine.findActor zapConsumer.eid = some zapConsumer ∧
    EidsNodup zapEngine ∧
    (50 : Nat) ∈ zapConsumer.inventory.map ItemE.eid ∧
    (lightningActivate zapEngine zapConsumer 50 4 5).err = none ∧
    (∃ t, t ∈ zapEngine.game_map.actorsList ∧ t.eid ≠ zapConsumer.eid ∧
      zapEngine.game_map.visible t.x t.y = true ∧
      dist2 zapConsumer.x zapConsumer.y t.x t.y < (5 + 1) ^ 2 ∧
      (∀ a ∈ zapEngine.game_map.actorsList, a.eid ≠ zapConsumer.eid →
        zapEngine.game_map.visible a.x a.y = true →
        dist2 zapConsumer.x zapConsumer.y t.x t.y ≤
          dist2 zapConsumer.x zapConsumer.y a.x a.y) ∧
      (∃ t1, (lightningActivate zapEngine zapConsumer 50 4
          5).engine.findActor t.eid = some t1 ∧
        t1.fighter = t.fighter.setHp (t.fighter.hp - 4)) ∧
      (∃ c1, (lightningActivate zapEngine zapConsumer 50 4
          5).engine.findActor zapConsumer.eid = some c1 ∧
        c1.inventory = eraseFirstEid zapConsumer.inventory 50 ∧
        c1.inventory.length + 1 = zapConsumer.inventory.length)) :=
  ⟨by decide, rfl, by decide, by decide, rfl,
   (C3_lightning_nearest_amended zapEngine zapConsumer 50 4 5 (by decide)
     rfl (by decide) (by decide)).2.1 rfl⟩

/-! ### Lemmas: the fireball loop -/

theorem take_damage_other (en : Engine) (eid : Nat) (amount : Int)
    (j : Nat) (hne : j ≠ eid) (b : ActorE)
    (hb : en.findActor j = some b) :
    ∃ b1, (en.take_damage eid amount).findActor j = some b1 ∧
      SameButLevel b b1 := by
  cases hfa : en.findActor eid with
  | none =>
    simp only [Engine.take_damage, hfa]
    exact ⟨b, hb, sameButLevel_refl b⟩
  | some a =>
    simp only [Engine.take_damage, hfa]
    exact set_hp_other en eid (a.fighter.hp - amount) j hne b hb

theorem sameButLevel_damaged (damage : Int) (b b' b1 : ActorE)
    (hs : SameButLevel b b') (hD : Damaged damage b' b1) :
    Damaged damage b b1 := by
  obtain ⟨he, hx, hy, hbl, hr, hai, hf, hq, hc, hv⟩ := hs
  obtain ⟨de, dx, dy, df, dv, dq, dc, dcond⟩ := hD
  refine ⟨de.trans he, dx.trans hx, dy.trans hy, ?_, dv.trans hv,
    dq.trans hq, dc.trans hc, ?_⟩
  · rw [df, hf]
  · rw [hf, hai, hbl, hr] at dcond
    exact dcond

theorem damaged_sameButLevel (damage : Int) (b t1 b1 : ActorE)
    (hD : Damaged damage b t1) (hs : SameButLevel t1 b1) :
    Damaged damage b b1 := by
  obtain ⟨de, dx, dy, df, dv, dq, dc, dcond⟩ := hD
  obtain ⟨he, hx, hy, hbl, hr, hai, hf, hq, hc, hv⟩ := hs
  refine ⟨he.trans de, hx.trans dx, hy.trans dy, hf.trans df,
    hv.trans dv, hq.trans dq, hc.trans dc, ?_⟩
  by_cases hcnd : b.fighter.clamped (b.fighter.hp - damage) = 0 ∧
      b.ai.isSome = true
  · rw [if_pos hcnd] at dcond ⊢
    obtain ⟨da, db, dr2⟩ := dcond
    exact ⟨hai.trans da, hbl.trans db, hr.trans dr2⟩
  · rw [if_neg hcnd] at dcond ⊢
    obtain ⟨da, db, dr2⟩ := dcond
    exact ⟨hai.trans da, hbl.trans db, hr.trans dr2⟩

theorem fireballLoop_other (damage r2 tx ty : Int) :
    ∀ (eids : List Nat) (en : Engine) (hit : Bool) (j : Nat), j ∉ eids →
      ∀ b, en.findActor j = some b →
      ∃ b1, ((fireballLoop damage r2 tx ty eids en hit).1).findActor j =
        some b1 ∧ SameButLevel b b1 := by
  intro eids
  induction eids with
  | nil => intro en hit j hj b hb; exact ⟨b, hb, sameButLevel_refl b⟩
  | cons eid rest ih =>
    intro en hit j hj b hb
    have hj1 : j ≠ eid := fun h => hj (h ▸ List.mem_cons_self _ _)
    have hj2 : j ∉ rest := fun h => hj (List.mem_cons_of_mem _ h)
    cases hfa : en.findActor eid with
    | none =>
      simp only [fireballLoop, hfa]
      exact ih en hit j hj2 b hb
    | some a =>
      simp only [fireballLoop, hfa]
      by_cases hcond : a.is_alive = true ∧ dist2 tx ty a.x a.y ≤ r2
      · rw [if_pos hcond]
        have haeid : a.eid = eid := findActorL_eid _ _ _ hfa
        obtain ⟨b', hb', hsame1⟩ := take_damage_other (en.add_message)
          a.eid damage j (fun h => hj1 (h.trans haeid)) b hb
        obtain ⟨b1, hb1, hsame2⟩ := ih _ true j hj2 b' hb'
        exact ⟨b1, hb1, sameButLevel_trans b b' b1 hsame1 hsame2⟩
      · rw [if_neg hcond]
        exact ih en hit j hj2 b hb

theorem fireballLoop_spec (damage r2 tx ty : Int) :
    ∀ (eids : List Nat) (en : Engine) (hit : Bool), eids.Nodup →
      ∀ j ∈ eids, ∀ b, en.findActor j = some b →
      ∃ b1, ((fireballLoop damage r2 tx ty eids en hit).1).findActor j =
          some b1 ∧
        ((b.is_alive = true ∧ dist2 tx ty b.x b.y ≤ r2) →
          Damaged damage b b1) ∧
        (¬(b.is_alive = true ∧ dist2 tx ty b.x b.y ≤ r2) →
          SameButLevel b b1) := by
  intro eids
  induction eids with
  | nil => intro en hit hnd j hj; simp at hj
  | cons eid rest ih =>
    intro en hit hnd j hj b hb
    simp only [List.nodup_cons] at hnd
    rcases List.mem_cons.mp hj with rfl | hjr
    · simp only [fireballLoop, hb]
      have hbeid : b.eid = j := findActorL_eid _ _ _ hb
      by_cases hcond : b.is_alive = true ∧ dist2 tx ty b.x b.y ≤ r2
      · rw [if_pos hcond]
        have hb2 : (en.add_message).findActor b.eid = some b := by
          rw [hbeid]; exact hb
        have htd : (en.add_message).take_damage b.eid damage =
            (en.add_message).set_hp b.eid (b.fighter.hp - damage) := by
          simp only [Engine.take_damage, hb2]
        obtain ⟨t1, ht1, e1, x1, y1, q1, c1, v1, f1, hdead, hlive⟩ :=
          set_hp_spec (en.add_message) b.eid (b.fighter.hp - damage) b hb2
        have hC : Damaged damage b t1 := by
          refine ⟨e1, x1, y1, f1, v1, q1, c1, ?_⟩
          by_cases hz : b.fighter.clamped (b.fighter.hp - damage) = 0
          · rw [if_pos ⟨hz, hcond.1⟩]
            exact hdead ⟨hz, hcond.1⟩
          · rw [if_neg (fun hcon => hz hcon.1)]
            have := hlive (fun hcon => hz hcon.1)
            exact ⟨this.1, this.2.1, this.2.2.1⟩
        have ht1j : ((en.add_message).take_damage b.eid damage).findActor
            j = some t1 := by
          rw [htd, ← hbeid]
          exact ht1
        obtain ⟨b1, hb1, hsame⟩ := fireballLoop_other damage r2 tx ty rest
          ((en.add_message).take_damage b.eid damage) true j hnd.1 t1 ht1j
        exact ⟨b1, hb1,
          fun _ => damaged_sameButLevel damage b t1 b1 hC hsame,
          fun hc => absurd hcond hc⟩
      · rw [if_neg hcond]
        obtain ⟨b1, hb1, hsame⟩ := fireballLoop_other damage r2 tx ty rest
          en hit j hnd.1 b hb
        exact ⟨b1, hb1, fun hc => absurd hc hcond, fun _ => hsame⟩
    · cases hfa : en.findActor eid with
      | none =>
        simp only [fireballLoop, hfa]
        exact ih en hit hnd.2 j hjr b hb
      | some a =>
        simp only [fireballLoop, hfa]
        have hne : j ≠ a.eid := by
          intro h
          have haeid : a.eid = eid := findActorL_eid _ _ _ hfa
          rw [h.trans haeid] at hjr
          exact hnd.1 hjr
        by_cases hcond : a.is_alive = true ∧ dist2 tx ty a.x a.y ≤ r2
        · rw [if_pos hcond]
          obtain ⟨b', hb', hsame1⟩ := take_damage_other (en.add_message)
            a.eid damage j hne b hb
          obtain ⟨b1, hb1, hout⟩ := ih _ true hnd.2 j hjr b' hb'
          obtain ⟨he, hx, hy, hbl, hr, hai, hf, hq, hcc, hv⟩ := hsame1
          have hcond_iff : (b'.is_alive = true ∧
              dist2 tx ty b'.x b'.y ≤ r2) ↔
              (b.is_alive = true ∧ dist2 tx ty b.x b.y ≤ r2) := by
            unfold ActorE.is_alive
            rw [hai, hx, hy]
          refine ⟨b1, hb1, ?_, ?_⟩
          · intro hcb
            exact sameButLevel_damaged damage b b' b1
              ⟨he, hx, hy, hbl, hr, hai, hf, hq, hcc, hv⟩
              (hout.1 (hcond_iff.mpr hcb))
          · intro hcb
            exact sameButLevel_trans b b' b1
              ⟨he, hx, hy, hbl, hr, hai, hf, hq, hcc, hv⟩
              (hout.2 (fun hcb2 => hcb (hcond_iff.mp hcb2)))
        · rw [if_neg hcond]
          exact ih en hit hnd.2 j hjr b hb

theorem fireballLoop_hit_mono (damage r2 tx ty : Int) :
    ∀ (eids : List Nat) (en : Engine),
      (fireballLoop damage r2 tx ty eids en true).2 = true := by
  intro eids
  induction eids with
  | nil => intro en; rfl
  | cons eid rest ih =>
    intro en
    cases hfa : en.findActor eid with
    | none => simp only [fireballLoop, hfa]; exact ih en
    | some a =>
      simp only [fireballLoop, hfa]
      by_cases hcond : a.is_alive = true ∧ dist2 tx ty a.x a.y ≤ r2
      · rw [if_pos hcond]; exact ih _
      · rw [if_neg hcond]; exact ih en

theorem fireballLoop_noop (damage r2 tx ty : Int) :
    ∀ (eids : List Nat) (en : Engine),
      (fireballLoop damage r2 tx ty eids en false).2 = false →
      (fireballLoop damage r2 tx ty eids en false).1 = en := by
  intro eids
  induction eids with
  | nil => intro en _; rfl
  | cons eid rest ih =>
    intro en h
    cases hfa : en.findActor eid with
    | none =>
      simp only [fireballLoop, hfa] at h ⊢
      exact ih en h
    | some a =>
      simp only [fireballLoop, hfa] at h ⊢
      by_cases hcond : a.is_alive = true ∧ dist2 tx ty a.x a.y ≤ r2
      · rw [if_pos hcond] at h
        rw [fireballLoop_hit_mono damage r2 tx ty rest _] at h
        exact absurd h (by simp)
      · rw [if_neg hcond] at h ⊢
        exact ih en h

theorem fireballLoop_hit_iff (damage r2 tx ty : Int) :
    ∀ (eids : List Nat) (en : Engine),
      ((fireballLoop damage r2 tx ty eids en false).2 = true ↔
        ∃ j ∈ eids, ∃ b, en.findActor j = some b ∧ b.is_alive = true ∧
          dist2 tx ty b.x b.y ≤ r2) := by
  intro eids
  induction eids with
  | nil => intro en; simp [fireballLoop]
  | cons eid rest ih =>
    intro en
    cases hfa : en.findActor eid with
    | none =>
      simp only [fireballLoop, hfa]
      rw [ih en]
      constructor
      · rintro ⟨j, hj, b, hb, h1, h2⟩
        exact ⟨j, List.mem_cons_of_mem _ hj, b, hb, h1, h2⟩
      · rintro ⟨j, hj, b, hb, h1, h2⟩
        rcases List.mem_cons.mp hj with rfl | hjr
        · rw [hfa] at hb; exact absurd hb (by simp)
        · exact ⟨j, hjr, b, hb, h1, h2⟩
    | some a =>
      simp only [fireballLoop, hfa]
      by_cases hcond : a.is_alive = true ∧ dist2 tx ty a.x a.y ≤ r2
      · rw [if_pos hcond]
        rw [fireballLoop_hit_mono damage r2 tx ty rest _]
        simp only [true_iff]
        exact ⟨eid, List.mem_cons_self _ _, a, hfa, hcond.1, hcond.2⟩
      · rw [if_neg hcond]
        rw [ih en]
        constructor
        · rintro ⟨j, hj, b, hb, h1, h2⟩
          exact ⟨j, List.mem_cons_of_mem _ hj, b, hb, h1, h2⟩
        · rintro ⟨j, hj, b, hb, h1, h2⟩
          rcases List.mem_cons.mp hj with rfl | hjr
          · rw [hfa] at hb
            cases Option.some.inj hb
            exact absurd ⟨h1, h2⟩ hcond
          · exact ⟨j, hjr, b, hb, h1, h2⟩

theorem actorEids_sublist (es : List Entity) :
    List.Sublist (es.filterMap fun e =>
      match e with
      | .actor a => some a.eid
      | .item _ => none) (es.map Entity.eid) := by
  induction es with
  | nil => exact List.Sublist.refl _
  | cons e rest ih =>
    cases e with
    | actor a => exact List.Sublist.cons₂ _ ih
    | item i => exact List.Sublist.cons _ ih

theorem actorEids_nodup (en : Engine) (hnd : EidsNodup en) :
    en.game_map.actorEids.Nodup :=
  List.Nodup.sublist (actorEids_sublist en.game_map.entities) hnd

theorem mem_actorEids (m : GameMap) (a : ActorE)
    (hmem : Entity.actor a ∈ m.entities) : a.eid ∈ m.actorEids := by
  simp only [GameMap.actorEids, List.mem_filterMap]
  exact ⟨.actor a, hmem, rfl⟩

/-- Claim C10: given a currently visible target tile, the fireball
damages every living actor whose squared Euclidean distance from the
target is at most radius² — the consumer itself and actors on
non-visible tiles included, since no per-actor visibility or self check
exists — leaves every other actor untouched (apart from the xp award a
kill gives the player), consumes the scroll exactly once iff at least
one actor was hit, and otherwise raises Impossible with no state
change. -/
theorem C10_fireball (en : Engine) (consumer_eid item_eid : Nat)
    (damage radius tx ty : Int) (c : ActorE)
    (hrad : 0 ≤ radius)
    (hv : en.game_map.visible tx ty = true)
    (hnd : EidsNodup en)
    (hc : en.findActor consumer_eid = some c)
    (hitem : item_eid ∈ c.inventory.map ItemE.eid) :
    ((fireballActivate en consumer_eid item_eid damage radius
        (tx, ty)).err = none ↔
      ∃ a, Entity.actor a ∈ en.game_map.entities ∧ a.is_alive = true ∧
        dist2 tx ty a.x a.y ≤ radius ^ 2) ∧
    (∀ a, Entity.actor a ∈ en.game_map.entities → a.is_alive = true →
      dist2 tx ty a.x a.y ≤ radius ^ 2 →
      ∃ a1, (fireballActivate en consumer_eid item_eid damage radius
          (tx, ty)).engine.findActor a.eid = some a1 ∧
        a1.fighter = a.fighter.setHp (a.fighter.hp - damage) ∧
        a1.x = a.x ∧ a1.y = a.y ∧
        (a.fighter.clamped (a.fighter.hp - damage) = 0 → deadCorpse a1) ∧
        (a.fighter.clamped (a.fighter.hp - damage) ≠ 0 →
          a1.ai = a.ai ∧ a1.blocks_movement = a.blocks_movement ∧
          a1.render_order = a.render_order)) ∧
    (∀ a, Entity.actor a ∈ en.game_map.entities →
      ¬(a.is_alive = true ∧ dist2 tx ty a.x a.y ≤ radius ^ 2) →
      ∃ a1, (fireballActivate en consumer_eid item_eid damage radius
          (tx, ty)).engine.findActor a.eid = some a1 ∧
        a1.fighter = a.fighter ∧ a1.ai = a.ai ∧ a1.x = a.x ∧
        a1.y = a.y ∧ a1.blocks_movement = a.blocks_movement ∧
        a1.render_order = a.render_order) ∧
    (∀ msg, (fireballActivate en consumer_eid item_eid damage radius
        (tx, ty)).err = some msg →
      (fireballActivate en consumer_eid item_eid damage radius
        (tx, ty)).engine = en ∧
      msg = "There are no targets in the radius.") ∧
    ((fireballActivate en consumer_eid item_eid damage radius
        (tx, ty)).err = none →
      ∃ c1, (fireballActivate en consumer_eid item_eid damage radius
          (tx, ty)).engine.findActor consumer_eid = some c1 ∧
        c1.inventory = eraseFirstEid c.inventory item_eid ∧
        c1.inventory.length + 1 = c.inventory.length) := by
  have hvn : ¬ (¬ en.game_map.visible tx ty = true) := by simp [hv]
  have hconv : (∃ j ∈ en.game_map.actorEids, ∃ b,
      en.findActor j = some b ∧ b.is_alive = true ∧
      dist2 tx ty b.x b.y ≤ radius ^ 2) ↔
      (∃ a, Entity.actor a ∈ en.game_map.entities ∧ a.is_alive = true ∧
        dist2 tx ty a.x a.y ≤ radius ^ 2) := by
    constructor
    · rintro ⟨j, hj, b, hb, h1, h2⟩
      exact ⟨b, findActorL_mem _ _ _ hb, h1, h2⟩
    · rintro ⟨a, ha, h1, h2⟩
      exact ⟨a.eid, mem_actorEids _ _ ha, a,
        findActor_of_mem en a hnd ha, h1, h2⟩
  refine ⟨?_, ?_, ?_, ?_, ?_⟩
  · simp only [fireballActivate, if_neg hvn]
    by_cases hhit : (fireballLoop damage (radius ^ 2) tx ty
        en.game_map.actorEids en false).2 = true
    · rw [if_pos hhit]
      constructor
      · intro _
        exact hconv.mp ((fireballLoop_hit_iff damage (radius ^ 2) tx ty
          en.game_map.actorEids en).mp hhit)
      · intro _
        rfl
    · rw [if_neg hhit]
      constructor
      · intro h
        exact absurd h (by simp)
      · intro hex
        exact absurd ((fireballLoop_hit_iff damage (radius ^ 2) tx ty
          en.game_map.actorEids en).mpr (hconv.mpr hex)) hhit
  · intro a hmem halive hinR
    have hjid : a.eid ∈ en.game_map.actorEids :=
      mem_actorEids en.game_map a hmem
    have hfa : en.findActor a.eid = some a := findActor_of_mem en a hnd hmem
    obtain ⟨b1, hb1, hdmg, _⟩ := fireballLoop_spec damage (radius ^ 2) tx ty
      en.game_map.actorEids en false (actorEids_nodup en hnd) a.eid hjid a
      hfa
    obtain ⟨de, dx2, dy2, df, dv, dq, dc, dcond⟩ := hdmg ⟨halive, hinR⟩
    have hhit : (fireballLoop damage (radius ^ 2) tx ty
        en.game_map.actorEids en false).2 = true :=
      (fireballLoop_hit_iff damage (radius ^ 2) tx ty
        en.game_map.actorEids en).mpr ⟨a.eid, hjid, a, hfa, halive, hinR⟩
    have hdead2 : a.fighter.clamped (a.fighter.hp - damage) = 0 →
        deadCorpse b1 := by
      intro hz
      rw [if_pos ⟨hz, halive⟩] at dcond
      exact dcond
    have hlive2 : a.fighter.clamped (a.fighter.hp - damage) ≠ 0 →
        b1.ai = a.ai ∧ b1.blocks_movement = a.blocks_movement ∧
        b1.render_order = a.render_order := by
      intro hz
      rw [if_neg (fun hcn => hz hcn.1)] at dcond
      exact dcond
    simp only [fireballActivate, if_neg hvn]
    rw [if_pos hhit]
    simp only [Engine.consumeItem]
    by_cases hce : a.eid = consumer_eid
    · subst hce
      have hfin := findActor_modify_self (fireballLoop damage (radius ^ 2)
          tx ty en.game_map.actorEids en false).1 a.eid
        (fun b => { b with
          inventory := eraseFirstEid b.inventory item_eid })
        b1 (fun x => rfl) hb1
      exact ⟨_, hfin, df, dx2, dy2, fun hz => hdead2 hz,
        fun hz => hlive2 hz⟩
    · have hfin := (findActor_modify_other (fireballLoop damage (radius ^ 2)
          tx ty en.game_map.actorEids en false).1 consumer_eid a.eid
        (fun b => { b with
          inventory := eraseFirstEid b.inventory item_eid })
        (fun x => rfl) hce).trans hb1
      exact ⟨b1, hfin, df, dx2, dy2, hdead2, hlive2⟩
  · intro a hmem hnc
    have hjid : a.eid ∈ en.game_map.actorEids :=
      mem_actorEids en.game_map a hmem
    have hfa : en.findActor a.eid = some a := findActor_of_mem en a hnd hmem
    obtain ⟨b1, hb1, _, hsame⟩ := fireballLoop_spec damage (radius ^ 2) tx
      ty en.game_map.actorEids en false (actorEids_nodup en hnd) a.eid hjid
      a hfa
    obtain ⟨se, sx, sy, sbl, sr, sai, sf, sq, sc, sv⟩ := hsame hnc
    simp only [fireballActivate, if_neg hvn]
    by_cases hhit : (fireballLoop damage (radius ^ 2) tx ty
        en.game_map.actorEids en false).2 = true
    · rw [if_pos hhit]
      simp only [Engine.consumeItem]
      by_cases hce : a.eid = consumer_eid
      · subst hce
        have hfin := findActor_modify_self (fireballLoop damage (radius ^ 2)
            tx ty en.game_map.actorEids en false).1 a.eid
          (fun b => { b with
            inventory := eraseFirstEid b.inventory item_eid })
          b1 (fun x => rfl) hb1
        exact ⟨_, hfin, sf, sai, sx, sy, sbl, sr⟩
      · have hfin := (findActor_modify_other (fireballLoop damage
            (radius ^ 2) tx ty en.game_map.actorEids en false).1
          consumer_eid a.eid
          (fun b => { b with
            inventory := eraseFirstEid b.inventory item_eid })
          (fun x => rfl) hce).trans hb1
        exact ⟨b1, hfin, sf, sai, sx, sy, sbl, sr⟩
    · rw [if_neg hhit]
      exact ⟨b1, hb1, sf, sai, sx, sy, sbl, sr⟩
  · intro msg herr
    simp only [fireballActivate, if_neg hvn] at herr ⊢
    by_cases hhit : (fireballLoop damage (radius ^ 2) tx ty
        en.game_map.actorEids en false).2 = true
    · rw [if_pos hhit] at herr
      exact absurd herr (by simp)
    · rw [if_neg hhit] at herr ⊢
      have hfalse : (fireballLoop damage (radius ^ 2) tx ty
          en.game_map.actorEids en false).2 = false := by
        simpa using hhit
      have hnoop := fireballLoop_noop damage (radius ^ 2) tx ty
        en.game_map.actorEids en hfalse
      refine ⟨hnoop, ?_⟩
      have := Option.some.inj herr
      exact this.symm
  · intro herr
    simp only [fireballActivate, if_neg hvn] at herr ⊢
    by_cases hhit : (fireballLoop damage (radius ^ 2) tx ty
        en.game_map.actorEids en false).2 = true
    · rw [if_pos hhit] at herr ⊢
      have hcid : c.eid = consumer_eid := findActorL_eid _ _ _ hc
      have hmem := findActorL_mem _ _ _ hc
      have hjid : c.eid ∈ en.game_map.actorEids :=
        mem_actorEids en.game_map c hmem
      have hfc : en.findActor c.eid = some c := by rw [hcid]; exact hc
      obtain ⟨b1, hb1, hdmgf, hsamef⟩ := fireballLoop_spec damage
        (radius ^ 2) tx ty en.game_map.actorEids en false
        (actorEids_nodup en hnd) c.eid hjid c hfc
      have hinv : b1.inventory = c.inventory := by
        by_cases hcnd : c.is_alive = true ∧ dist2 tx ty c.x c.y ≤
            radius ^ 2
        · exact (hdmgf hcnd).2.2.2.2.1
        · exact (hsamef hcnd).2.2.2.2.2.2.2.2.2
      simp only [Engine.consumeItem]
      have hb1c : (fireballLoop damage (radius ^ 2) tx ty
          en.game_map.actorEids en false).1.findActor consumer_eid =
          some b1 := by
        rw [← hcid]; exact hb1
      have hfin := findActor_modify_self (fireballLoop damage (radius ^ 2)
          tx ty en.game_map.actorEids en false).1 consumer_eid
        (fun b => { b with
          inventory := eraseFirstEid b.inventory item_eid })
        b1 (fun x => rfl) hb1c
      refine ⟨_, hfin, ?_, ?_⟩
      · show eraseFirstEid b1.inventory item_eid =
          eraseFirstEid c.inventory item_eid
        rw [hinv]
      · show (eraseFirstEid b1.inventory item_eid).length + 1 =
          c.inventory.length
        rw [hinv]
        exact eraseFirstEid_length c.inventory item_eid hitem
    · rw [if_neg hhit] at herr
      exact absurd herr (by simp)

theorem C10_fireball_witness :
    (0 : Int) ≤ 3 ∧
    fireEngine.game_map.visible 1 1 = true ∧
    EidsNodup fireEngine ∧
    fireEngine.findActor 0 = some fireConsumer ∧
    (60 : Nat) ∈ fireConsumer.inventory.map ItemE.eid ∧
    (∃ a1, (fireballActivate fireEngine 0 60 12 3
        (1, 1)).engine.findActor fireVictim.eid = some a1 ∧
      a1.fighter = fireVictim.fighter.setHp
        (fireVictim.fighter.hp - 12) ∧
      a1.x = fireVictim.x ∧ a1.y = fireVictim.y ∧
      (fireVictim.fighter.clamped (fireVictim.fighter.hp - 12) = 0 →
        deadCorpse a1) ∧
      (fireVictim.fighter.clamped (fireVictim.fighter.hp - 12) ≠ 0 →
        a1.ai = fireVictim.ai ∧
        a1.blocks_movement = fireVictim.blocks_movement ∧
        a1.render_order = fireVictim.render_order)) ∧
    (fireballActivate fireEngine 0 60 12 3 (1, 1)).err = none ∧
    hpOf (fireballActivate fireEngine 0 60 12 3 (1, 1)).engine 0 =
      some 18 ∧
    hpOf (fireballActivate fireEngine 0 60 12 3 (1, 1)).engine 1 =
      some 0 ∧
    hpOf (fireballActivate fireEngine 0 60 12 3 (1, 1)).engine 2 =
      some 10 ∧
    invLenOf (fireballActivate fireEngine 0 60 12 3 (1, 1)).engine 0 =
      some 0 :=
  ⟨by decide, rfl, by decide, rfl, by decide,
   (C10_fireball fireEngine 0 60 12 3 1 1 fireConsumer (by decide) rfl
     (by decide) rfl (by decide)).2.1 fireVictim
     (List.mem_cons_of_mem _ (List.mem_cons_self _ _)) rfl (by decide),
   rfl, rfl, rfl, rfl, rfl⟩

/-! ### Lemmas: the dead-corpse invariant -/

theorem mem_modifyEnts (es : List Entity) (eid : Nat)
    (f : ActorE → ActorE) (e1 : Entity)
    (h : e1 ∈ modifyEnts es eid f) :
    (e1 ∈ es ∧ ∀ a1, e1 = Entity.actor a1 → a1.eid ≠ eid) ∨
    ∃ a0, Entity.actor a0 ∈ es ∧ a0.eid = eid ∧
      e1 = Entity.actor (f a0) := by
  induction es with
  | nil => simp [modifyEnts] at h
  | cons e rest ih =>
    cases e with
    | item i =>
      rcases List.mem_cons.mp h with rfl | h2
      · left
        refine ⟨List.mem_cons_self _ _, ?_⟩
        intro a1 habs
        exact absurd habs (by simp)
      · rcases ih h2 with ⟨hm, hno⟩ | ⟨a0, hm, he, hq⟩
        · exact Or.inl ⟨List.mem_cons_of_mem _ hm, hno⟩
        · exact Or.inr ⟨a0, List.mem_cons_of_mem _ hm, he, hq⟩
    | actor b =>
      by_cases hb : b.eid = eid
      · simp only [modifyEnts, if_pos hb] at h
        rcases List.mem_cons.mp h with rfl | h2
        · exact Or.inr ⟨b, List.mem_cons_self _ _, hb, rfl⟩
        · rcases ih h2 with ⟨hm, hno⟩ | ⟨a0, hm, he, hq⟩
          · exact Or.inl ⟨List.mem_cons_of_mem _ hm, hno⟩
          · exact Or.inr ⟨a0, List.mem_cons_of_mem _ hm, he, hq⟩
      · simp only [modifyEnts, if_neg hb] at h
        rcases List.mem_cons.mp h with rfl | h2
        · left
          refine ⟨List.mem_cons_self _ _, ?_⟩
          intro a1 he
          cases he
          exact hb
        · rcases ih h2 with ⟨hm, hno⟩ | ⟨a0, hm, he, hq⟩
          · exact Or.inl ⟨List.mem_cons_of_mem _ hm, hno⟩
          · exact Or.inr ⟨a0, List.mem_cons_of_mem _ hm, he, hq⟩

theorem badDead_modifyEnts_corpseOK (es : List Entity) (eid : Nat)
    (f : ActorE → ActorE) (bad : Nat)
    (hEid : ∀ b, (f b).eid = b.eid)
    (hOK : ∀ b, deadCorpse b → deadCorpse (f b))
    (h : BadDead es bad) : BadDead (modifyEnts es eid f) bad := by
  intro a1 hmem heid
  rcases mem_modifyEnts es eid f _ hmem with ⟨hm, _⟩ | ⟨a0, hm, he, hq⟩
  · exact h a1 hm heid
  · cases hq
    have ha0 : a0.eid = bad := by rw [← hEid a0]; exact heid
    exact hOK a0 (h a0 hm ha0)

theorem badDead_modifyEnts_ne (es : List Entity) (eid : Nat)
    (f : ActorE → ActorE) (bad : Nat)
    (hEid : ∀ b, (f b).eid = b.eid) (hne : eid ≠ bad)
    (h : BadDead es bad) : BadDead (modifyEnts es eid f) bad := by
  intro a1 hmem heid
  rcases mem_modifyEnts es eid f _ hmem with ⟨hm, _⟩ | ⟨a0, hm, he, hq⟩
  · exact h a1 hm heid
  · cases hq
    rw [hEid a0] at heid
    exact absurd (he.symm.trans heid) hne

theorem badDead_modifyEnts_establish (es : List Entity) (eid : Nat)
    (f : ActorE → ActorE)
    (hdead : ∀ b, deadCorpse (f b)) :
    ∀ a1, Entity.actor a1 ∈ modifyEnts es eid f → a1.eid = eid →
      deadCorpse a1 := by
  intro a1 hmem heid
  rcases mem_modifyEnts es eid f _ hmem with ⟨_, hno⟩ | ⟨a0, _, _, hq⟩
  · exact absurd heid (hno a1 rfl)
  · cases hq
    exact hdead a0

theorem badDead_append (es1 es2 : List Entity) (bad : Nat)
    (h1 : BadDead es1 bad) (h2 : BadDead es2 bad) :
    BadDead (es1 ++ es2) bad := by
  intro a1 hmem heid
  rcases List.mem_append.mp hmem with hm | hm
  · exact h1 a1 hm heid
  · exact h2 a1 hm heid

theorem badDead_eraseIdx (es : List Entity) (i : Nat) (bad : Nat)
    (h : BadDead es bad) : BadDead (es.eraseIdx i) bad :=
  fun a1 hmem heid => h a1 (List.mem_of_mem_eraseIdx hmem) heid

theorem live_eid_ne_bad (en : Engine) (bad : Nat) (h : en.DeadAt bad)
    (a : ActorE) (hmem : Entity.actor a ∈ en.game_map.entities)
    (halive : a.ai.isSome = true) : a.eid ≠ bad := by
  intro he
  have hd := h a hmem he
  rw [hd.1] at halive
  simp at halive

theorem deadAt_modify_corpseOK (en : Engine) (eid : Nat)
    (f : ActorE → ActorE) (bad : Nat)
    (hEid : ∀ b, (f b).eid = b.eid)
    (hOK : ∀ b, deadCorpse b → deadCorpse (f b))
    (h : en.DeadAt bad) : (en.modifyActor eid f).DeadAt bad :=
  badDead_modifyEnts_corpseOK en.game_map.entities eid f bad hEid hOK h

theorem deadAt_modify_ne (en : Engine) (eid : Nat)
    (f : ActorE → ActorE) (bad : Nat)
    (hEid : ∀ b, (f b).eid = b.eid) (hne : eid ≠ bad)
    (h : en.DeadAt bad) : (en.modifyActor eid f).DeadAt bad :=
  badDead_modifyEnts_ne en.game_map.entities eid f bad hEid hne h

theorem deadAt_player_add_xp (en : Engine) (xp : Int) (bad : Nat)
    (h : en.DeadAt bad) : (en.player_add_xp xp).DeadAt bad := by
  cases hp : en.player? with
  | none => simp only [Engine.player_add_xp, hp]; exact h
  | some p =>
    simp only [Engine.player_add_xp, hp]
    by_cases hz : xp = 0 ∨ p.level.level_up_base = 0
    · rw [if_pos hz]; exact h
    · rw [if_neg hz]
      have hmod := deadAt_modify_corpseOK en p.eid
        (fun c => { c with level :=
          { c.level with current_xp := c.level.current_xp + xp } })
        bad (fun b => rfl)
        (fun b hd => ⟨hd.1, hd.2.1, hd.2.2⟩) h
      split <;> exact hmod

theorem deadAt_die (en : Engine) (eid : Nat) (bad : Nat)
    (h : en.DeadAt bad) : (en.die eid).DeadAt bad := by
  cases hfa : en.findActor eid with
  | none => simp only [Engine.die, hfa]; exact h
  | some a =>
    simp only [Engine.die, hfa]
    exact deadAt_player_add_xp _ a.level.xp_given bad
      (deadAt_modify_corpseOK en eid _ bad (fun b => rfl)
        (fun b _ => ⟨rfl, rfl, rfl⟩) h)

theorem deadAt_set_hp (en : Engine) (eid : Nat) (value : Int) (bad : Nat)
    (h : en.DeadAt bad) : (en.set_hp eid value).DeadAt bad := by
  cases hfa : en.findActor eid with
  | none => simp only [Engine.set_hp, hfa]; exact h
  | some a =>
    simp only [Engine.set_hp, hfa]
    have hmod := deadAt_modify_corpseOK en eid
      (fun c => { c with fighter := c.fighter.setHp value }) bad
      (fun b => rfl) (fun b hd => ⟨hd.1, hd.2.1, hd.2.2⟩) h
    by_cases hd : a.fighter.clamped value = 0 ∧ a.ai.isSome = true
    · rw [if_pos hd]
      exact deadAt_die _ eid bad hmod
    · rw [if_neg hd]
      exact hmod

theorem deadAt_take_damage (en : Engine) (eid : Nat) (amount : Int)
    (bad : Nat) (h : en.DeadAt bad) :
    (en.take_damage eid amount).DeadAt bad := by
  cases hfa : en.findActor eid with
  | none => simp only [Engine.take_damage, hfa]; exact h
  | some a =>
    simp only [Engine.take_damage, hfa]
    exact deadAt_set_hp en eid _ bad h

theorem deadAt_heal (en : Engine) (eid : Nat) (amount : Int) (bad : Nat)
    (h : en.DeadAt bad) : (en.heal eid amount).1.DeadAt bad := by
  cases hfa : en.findActor eid with
  | none => simp only [Engine.heal, hfa]; exact h
  | some a =>
    simp only [Engine.heal, hfa]
    by_cases hfull : a.fighter.hp = a.fighter.max_hp
    · rw [if_pos hfull]; exact h
    · rw [if_neg hfull]
      exact deadAt_set_hp en eid _ bad h

theorem deadAt_consumeItem (en : Engine) (aeid item_eid : Nat) (bad : Nat)
    (h : en.DeadAt bad) : (en.consumeItem aeid item_eid).DeadAt bad :=
  deadAt_modify_corpseOK en aeid _ bad (fun b => rfl)
    (fun b hd => ⟨hd.1, hd.2.1, hd.2.2⟩) h

theorem deadAt_setAI_ne (en : Engine) (eid : Nat) (v : Option AI)
    (bad : Nat) (hne : eid ≠ bad) (h : en.DeadAt bad) :
    (en.setAI eid v).DeadAt bad :=
  deadAt_modify_ne en eid _ bad (fun b => rfl) hne h

theorem deadAt_movement (en : Engine) (aeid : Nat) (dx dy : Int)
    (bad : Nat) (h : en.DeadAt bad) :
    (movementPerform en aeid dx dy).engine.DeadAt bad := by
  cases hfa : en.findActor aeid with
  | none => simp only [movementPerform, hfa]; exact h
  | some a =>
    simp only [movementPerform, hfa]
    split_ifs
    all_goals
      first
      | exact h
      | exact deadAt_modify_corpseOK en aeid _ bad (fun b => rfl)
          (fun b hd => ⟨hd.1, hd.2.1, hd.2.2⟩) h

theorem deadAt_melee (en : Engine) (aeid : Nat) (dx dy : Int) (bad : Nat)
    (h : en.DeadAt bad) :
    (meleePerform en aeid dx dy).engine.DeadAt bad := by
  cases hfa : en.findActor aeid with
  | none => simp only [meleePerform, hfa]; exact h
  | some att =>
    cases htg : en.game_map.get_actor_at_location (att.x + dx)
        (att.y + dy) with
    | none => simp only [meleePerform, hfa, htg]; exact h
    | some target =>
      simp only [meleePerform, hfa, htg]
      split_ifs with hdmg
      · exact deadAt_set_hp (en.add_message) target.eid _ bad h
      · exact h

theorem deadAt_bump (en : Engine) (aeid : Nat) (dx dy : Int) (bad : Nat)
    (h : en.DeadAt bad) :
    (bumpPerform en aeid dx dy).engine.DeadAt bad := by
  cases hfa : en.findActor aeid with
  | none => simp only [bumpPerform, hfa]; exact h
  | some a =>
    simp only [bumpPerform, hfa]
    split_ifs
    · exact deadAt_melee en aeid dx dy bad h
    · exact deadAt_movement en aeid dx dy bad h

theorem deadAt_pickup (en : Engine) (aeid : Nat) (bad : Nat)
    (h : en.DeadAt bad) : (pickupPerform en aeid).engine.DeadAt bad := by
  cases hfa : en.findActor aeid with
  | none => simp only [pickupPerform, hfa]; exact h
  | some a =>
    cases hco : findCoItem en.game_map.entities a.x a.y with
    | none => simp only [pickupPerform, hfa, hco]; exact h
    | some p =>
      obtain ⟨i, it⟩ := p
      simp only [pickupPerform, hfa, hco]
      split_ifs with hfull
      · exact h
      · exact deadAt_modify_corpseOK
          { en with game_map := { en.game_map with
              entities := en.game_map.entities.eraseIdx i } }
          aeid _ bad (fun b => rfl)
          (fun b hd => ⟨hd.1, hd.2.1, hd.2.2⟩)
          (badDead_eraseIdx en.game_map.entities i bad h)

theorem deadAt_equip (en : Engine) (aeid item_eid : Nat) (bad : Nat)
    (h : en.DeadAt bad) :
    (equipPerform en aeid item_eid).engine.DeadAt bad := by
  cases hfa : en.findActor aeid with
  | none => simp only [equipPerform, hfa]; exact h
  | some a =>
    cases hfind : a.inventory.find? (fun it => it.eid == item_eid) with
    | none => simp only [equipPerform, hfa, hfind]; exact h
    | some it =>
      simp only [equipPerform, hfa, hfind]
      exact deadAt_modify_corpseOK en aeid _ bad (fun b => rfl)
        (fun b hd => ⟨hd.1, hd.2.1, hd.2.2⟩) h

theorem deadAt_drop (en : Engine) (aeid item_eid : Nat) (bad : Nat)
    (h : en.DeadAt bad) :
    (dropPerform en aeid item_eid).engine.DeadAt bad := by
  cases hfa : en.findActor aeid with
  | none => simp only [dropPerform, hfa]; exact h
  | some a =>
    cases hfind : a.inventory.find? (fun it => it.eid == item_eid) with
    | none => simp only [dropPerform, hfa, hfind]; exact h
    | some it =>
      simp only [dropPerform, hfa, hfind]
      have h1 : (if a.equipment.item_is_equipped it.eid = true then
          equipPerform en aeid item_eid
        else ⟨en, none⟩ : StepResult).engine.DeadAt bad := by
        split_ifs with hteq
        · exact deadAt_equip en aeid item_eid bad h
        · exact h
      cases hfa2 : (if a.equipment.item_is_equipped it.eid = true then
          equipPerform en aeid item_eid
        else ⟨en, none⟩ : StepResult).engine.findActor aeid with
      | none => simp only [hfa2]; exact h1
      | some a1 =>
        simp only [hfa2]
        refine badDead_append _ _ bad
          (badDead_modifyEnts_corpseOK _ aeid _ bad (fun b => rfl)
            (fun b hd => ⟨hd.1, hd.2.1, hd.2.2⟩) h1) ?_
        intro a2 hm he
        simp at hm

theorem genLoop_badDead
    (bres : Int × Int → Int × Int → List (Int × Int)) (pe bad : Nat) :
    ∀ (draws : List CandidateDraw) (dungeon : GameMap)
      (rooms : List RectangularRoom),
      (∀ d ∈ draws, d.FreshFor bad) →
      BadDead dungeon.entities bad →
      BadDead (genLoop bres pe draws dungeon rooms).1.entities bad := by
  intro draws
  induction draws with
  | nil => intro dungeon rooms _ h; exact h
  | cons d rest ih =>
    intro dungeon rooms hf h
    by_cases hcut : rooms.any
        (fun other =>
          (RectangularRoom.make d.x d.y d.room_width
            d.room_height).intersects other)
    · simp only [genLoop, if_pos hcut]
      exact ih dungeon rooms (fun d2 hd2 => hf d2 (List.mem_cons_of_mem _
        hd2)) h
    · simp only [genLoop, if_neg hcut]
      have hfrest : ∀ d2 ∈ rest, d2.FreshFor bad :=
        fun d2 hd2 => hf d2 (List.mem_cons_of_mem _ hd2)
      have hfd : d.FreshFor bad := hf d (List.mem_cons_self _ _)
      have hents : BadDead (d.ents (RectangularRoom.make d.x d.y
          d.room_width d.room_height) dungeon.entities) bad := by
        intro a1 hm he
        exact absurd he (hfd _ _ _ hm)
      have happ : BadDead (dungeon.entities ++ d.ents
          (RectangularRoom.make d.x d.y d.room_width d.room_height)
          dungeon.entities) bad := badDead_append _ _ bad h hents
      cases hlast : rooms.getLast? with
      | none =>
        simp only [hlast]
        refine ih _ _ hfrest ?_
        exact badDead_modifyEnts_corpseOK _ pe _ bad (fun b => rfl)
          (fun b hd => ⟨hd.1, hd.2.1, hd.2.2⟩) happ
      | some prev =>
        simp only [hlast]
        exact ih _ _ hfrest happ

theorem deadAt_takeStairs (en : Engine) (aeid : Nat)
    (bres : Int × Int → Int × Int → List (Int × Int))
    (draws : List CandidateDraw) (bad : Nat)
    (hfr : ∀ d ∈ draws, d.FreshFor bad) (h : en.DeadAt bad) :
    (takeStairsPerform en aeid bres draws).engine.DeadAt bad := by
  cases hfa : en.findActor aeid with
  | none => simp only [takeStairsPerform, hfa]; exact h
  | some a =>
    simp only [takeStairsPerform, hfa]
    split_ifs with hds
    · cases hp : en.player? with
      | none => simp only [Engine.generate_floor, hp]; exact h
      | some p =>
        simp only [Engine.generate_floor, hp]
        refine genLoop_badDead bres en.player_eid bad _ _ []
          (fun d hd => hfr d ((List.take_sublist _ _).subset hd)) ?_
        intro a1 hm he
        have ha1 : a1 = p := by
          rcases List.mem_singleton.mp hm with h2
          cases h2
          rfl
        subst ha1
        exact h a1 (findActorL_mem _ _ _ hp) he
    · exact h

theorem deadAt_healing (en : Engine) (consumer : ActorE)
    (item_eid : Nat) (amount : Int) (bad : Nat) (h : en.DeadAt bad) :
    (healingActivate en consumer item_eid amount).engine.DeadAt bad := by
  simp only [healingActivate]
  split_ifs with hrec
  · exact deadAt_consumeItem _ consumer.eid item_eid bad
      (deadAt_heal en consumer.eid amount bad h)
  · exact deadAt_heal en consumer.eid amount bad h

theorem deadAt_lightning (en : Engine) (consumer : ActorE)
    (item_eid : Nat) (damage R : Int) (bad : Nat) (h : en.DeadAt bad) :
    (lightningActivate en consumer item_eid damage R).engine.DeadAt
      bad := by
  cases hsel : (lightningSelect en.game_map consumer.x consumer.y
      consumer.eid R).1 with
  | none => simp only [lightningActivate, hsel]; exact h
  | some t =>
    simp only [lightningActivate, hsel]
    exact deadAt_consumeItem _ consumer.eid item_eid bad
      (deadAt_take_damage (en.add_message) t.eid damage bad h)

theorem deadAt_confusion (en : Engine) (consumer : ActorE)
    (item_eid : Nat) (nturns : Int) (target_xy : Int × Int) (bad : Nat)
    (h : en.DeadAt bad) :
    (confusionActivate en consumer item_eid nturns
      target_xy).engine.DeadAt bad := by
  simp only [confusionActivate]
  split_ifs with hv
  · cases htg : en.game_map.get_actor_at_location target_xy.1
        target_xy.2 with
    | none => simp only [htg]; exact h
    | some target =>
      simp only [htg]
      have hspec := get_actor_at_spec _ _ _ _ htg
      have hne : target.eid ≠ bad :=
        live_eid_ne_bad en bad h target hspec.1 hspec.2.1
      split_ifs with hself
      · exact h
      · exact deadAt_consumeItem _ consumer.eid item_eid bad
          (deadAt_setAI_ne (en.add_message) target.eid _ bad hne h)
  · exact h

theorem fireballLoop_deadAt (damage r2 tx ty : Int) :
    ∀ (eids : List Nat) (en : Engine) (hit : Bool) (bad : Nat),
      en.DeadAt bad →
      ((fireballLoop damage r2 tx ty eids en hit).1).DeadAt bad := by
  intro eids
  induction eids with
  | nil => intro en hit bad h; exact h
  | cons eid rest ih =>
    intro en hit bad h
    cases hfa : en.findActor eid with
    | none => simp only [fireballLoop, hfa]; exact ih en hit bad h
    | some a =>
      simp only [fireballLoop, hfa]
      by_cases hcond : a.is_alive = true ∧ dist2 tx ty a.x a.y ≤ r2
      · rw [if_pos hcond]
        exact ih _ true bad
          (deadAt_take_damage (en.add_message) a.eid damage bad h)
      · rw [if_neg hcond]
        exact ih en hit bad h

theorem deadAt_fireball (en : Engine) (consumer_eid item_eid : Nat)
    (damage radius : Int) (target_xy : Int × Int) (bad : Nat)
    (h : en.DeadAt bad) :
    (fireballActivate en consumer_eid item_eid damage radius
      target_xy).engine.DeadAt bad := by
  simp only [fireballActivate]
  split_ifs with hv hhit
  · exact deadAt_consumeItem _ consumer_eid item_eid bad
      (fireballLoop_deadAt damage (radius ^ 2) target_xy.1 target_xy.2
        en.game_map.actorEids en false bad h)
  · exact fireballLoop_deadAt damage (radius ^ 2) target_xy.1 target_xy.2
      en.game_map.actorEids en false bad h
  · exact h

theorem deadAt_itemAction (en : Engine) (aeid item_eid : Nat)
    (target_xy : Int × Int) (bad : Nat) (h : en.DeadAt bad) :
    (itemActionPerform en aeid item_eid target_xy).engine.DeadAt bad := by
  cases hfa : en.findActor aeid with
  | none => simp only [itemActionPerform, hfa]; exact h
  | some a =>
    cases hfind : a.inventory.find? (fun it => it.eid == item_eid) with
    | none => simp only [itemActionPerform, hfa, hfind]; exact h
    | some it =>
      cases hcons : it.consumable with
      | none => simp only [itemActionPerform, hfa, hfind, hcons]; exact h
      | some c =>
        cases c with
        | healing amount =>
          simp only [itemActionPerform, hfa, hfind, hcons]
          exact deadAt_healing en a it.eid amount bad h
        | lightning damage R =>
          simp only [itemActionPerform, hfa, hfind, hcons]
          exact deadAt_lightning en a it.eid damage R bad h
        | confusion nturns =>
          simp only [itemActionPerform, hfa, hfind, hcons]
          exact deadAt_confusion en a it.eid nturns target_xy bad h
        | fireball damage radius =>
          simp only [itemActionPerform, hfa, hfind, hcons]
          exact deadAt_fireball en a.eid it.eid damage radius target_xy
            bad h

theorem deadAt_confused (en : Engine) (aeid : Nat) (previous : Option AI)
    (turns : Int) (k : Fin 8) (bad : Nat) (hne : aeid ≠ bad)
    (h : en.DeadAt bad) :
    (confusedPerform en aeid previous turns k).engine.DeadAt bad := by
  simp only [confusedPerform]
  split_ifs with ht
  · exact deadAt_setAI_ne (en.add_message) aeid previous bad hne h
  · exact deadAt_bump _ aeid _ _ bad
      (deadAt_setAI_ne en aeid _ bad hne h)

theorem deadAt_hostile (en : Engine) (aeid : Nat)
    (path opath : List (Int × Int)) (bad : Nat) (hne : aeid ≠ bad)
    (h : en.DeadAt bad) :
    (hostilePerform en aeid path opath).engine.DeadAt bad := by
  cases hp : en.player? with
  | none => simp only [hostilePerform, hp]; exact h
  | some p =>
    cases hfa : en.findActor aeid with
    | none => simp only [hostilePerform, hp, hfa]; exact h
    | some a =>
      simp only [hostilePerform, hp, hfa]
      split_ifs with hv1 hv2
      · exact deadAt_melee en aeid _ _ bad h
      · cases opath with
        | nil => exact deadAt_setAI_ne en aeid _ bad hne h
        | cons dest rest =>
          exact deadAt_movement _ aeid _ _ bad
            (deadAt_setAI_ne en aeid _ bad hne h)
      · cases path with
        | nil => exact deadAt_setAI_ne en aeid _ bad hne h
        | cons dest rest =>
          exact deadAt_movement _ aeid _ _ bad
            (deadAt_setAI_ne en aeid _ bad hne h)

theorem deadAt_aiTurn (en : Engine) (aeid : Nat)
    (opath : List (Int × Int)) (k : Fin 8) (bad : Nat)
    (h : en.DeadAt bad) :
    (aiTurnPerform en aeid opath k).engine.DeadAt bad := by
  cases hfa : en.findActor aeid with
  | none => simp only [aiTurnPerform, hfa]; exact h
  | some a =>
    cases hai : a.ai with
    | none => simp only [aiTurnPerform, hfa, hai]; exact h
    | some ai0 =>
      have hne : aeid ≠ bad := by
        intro he
        exact live_eid_ne_bad en bad h a (findActorL_mem _ _ _ hfa)
          (by simp [hai]) ((findActorL_eid _ _ _ hfa).trans he)
      cases ai0 with
      | hostile path =>
        simp only [aiTurnPerform, hfa, hai]
        exact deadAt_hostile en aeid path opath bad hne h
      | confused previous turns =>
        simp only [aiTurnPerform, hfa, hai]
        exact deadAt_confused en aeid previous turns k bad hne h

theorem deadAt_applyOp (en : Engine) (op : Op) (bad : Nat)
    (h : en.DeadAt bad) (hfr : op.FreshFor bad) :
    (applyOp en op).engine.DeadAt bad := by
  cases op with
  | wait aeid => exact h
  | move aeid dx dy => exact deadAt_movement en aeid dx dy bad h
  | melee aeid dx dy => exact deadAt_melee en aeid dx dy bad h
  | bump aeid dx dy => exact deadAt_bump en aeid dx dy bad h
  | pickup aeid => exact deadAt_pickup en aeid bad h
  | takeStairs aeid bres draws =>
    exact deadAt_takeStairs en aeid bres draws bad hfr h
  | useItem aeid item_eid target_xy =>
    exact deadAt_itemAction en aeid item_eid target_xy bad h
  | equip aeid item_eid => exact deadAt_equip en aeid item_eid bad h
  | drop aeid item_eid => exact deadAt_drop en aeid item_eid bad h
  | aiTurn aeid opath k => exact deadAt_aiTurn en aeid opath k bad h

/-- Claim C9: whenever a Fighter's hp reaches 0 through the hp setter
while its actor still has an AI, Fighter.die leaves the actor with
ai = None, blocks_movement = False and render_order CORPSE (part 1);
every subsequent operation of the game preserves that corpse state for
every actor object carrying that identity — provided freshly spawned
entities of a new floor are new objects (part 2); consequently a dead
actor is never yielded by GameMap.actors (part 3), never returned by
get_actor_at_location (part 4) or get_blocking_entity_at_location
(part 5), never blocks a MovementAction (part 6: a move onto a walkable
in-bounds tile holding only non-blocking entities — in particular
corpses — succeeds), and is never targeted by a MeleeAction (part 7:
with no living actor at the destination, melee raises Impossible). -/
theorem C9_death_invariant :
    (∀ (en : Engine) (eid : Nat) (a : ActorE) (value : Int),
      en.findActor eid = some a →
      a.fighter.clamped value = 0 → a.ai.isSome = true →
      (en.set_hp eid value).DeadAt eid) ∧
    (∀ (en : Engine) (op : Op) (bad : Nat),
      en.DeadAt bad → op.FreshFor bad →
      (applyOp en op).engine.DeadAt bad) ∧
    (∀ (en : Engine) (bad : Nat), en.DeadAt bad →
      ∀ a ∈ en.game_map.actorsList, a.eid ≠ bad) ∧
    (∀ (en : Engine) (bad : Nat) (x y : Int) (t : ActorE),
      en.DeadAt bad →
      en.game_map.get_actor_at_location x y = some t → t.eid ≠ bad) ∧
    (∀ (en : Engine) (bad : Nat) (x y : Int) (a : ActorE),
      en.DeadAt bad →
      en.game_map.get_blocking_entity_at_location x y =
        some (Entity.actor a) → a.eid ≠ bad) ∧
    (∀ (en : Engine) (aeid : Nat) (dx dy : Int) (a : ActorE),
      en.findActor aeid = some a →
      en.game_map.in_bounds (a.x + dx) (a.y + dy) = true →
      (en.game_map.tiles (a.x + dx) (a.y + dy)).walkable = true →
      (∀ e ∈ en.game_map.entities,
        e.x = a.x + dx → e.y = a.y + dy → e.blocks_movement = false) →
      (movementPerform en aeid dx dy).err = none) ∧
    (∀ (en : Engine) (aeid : Nat) (dx dy : Int) (a : ActorE),
      en.findActor aeid = some a →
      (∀ e ∈ en.game_map.entities,
        e.x = a.x + dx → e.y = a.y + dy → e.alive = false) →
      (meleePerform en aeid dx dy).err = some "Nothing to attack") := by
  refine ⟨?_, ?_, ?_, ?_, ?_, ?_, ?_⟩
  · intro en eid a value ha hz hai
    simp only [Engine.set_hp, ha]
    rw [if_pos ⟨hz, hai⟩]
    have hfa1 := findActor_modify_self en eid
      (fun b => { b with fighter := b.fighter.setHp value }) a
      (fun b => rfl) ha
    simp only [Engine.die, hfa1]
    refine deadAt_player_add_xp _ _ eid ?_
    exact badDead_modifyEnts_establish _ eid _ (fun b => ⟨rfl, rfl, rfl⟩)
  · intro en op bad h hfr
    exact deadAt_applyOp en op bad h hfr
  · intro en bad h a hmem
    have hm := actorsList_mem en.game_map a hmem
    exact live_eid_ne_bad en bad h a hm.1 hm.2
  · intro en bad x y t h hget
    have hs := get_actor_at_spec _ _ _ _ hget
    exact live_eid_ne_bad en bad h t hs.1 hs.2.1
  · intro en bad x y a h hget he
    have hmem := List.mem_of_find?_eq_some hget
    have hpred := List.find?_some hget
    have hd := h a hmem he
    rw [show (Entity.actor a).blocks_movement = a.blocks_movement from rfl,
      hd.2.1] at hpred
    simp at hpred
  · intro en aeid dx dy a ha hib hwalk hnb
    have hblock : en.game_map.get_blocking_entity_at_location (a.x + dx)
        (a.y + dy) = none := by
      apply List.find?_eq_none.mpr
      intro e he
      intro hc
      simp only [Bool.and_eq_true, beq_iff_eq] at hc
      obtain ⟨⟨hbm, hx⟩, hy⟩ := hc
      rw [hnb e he hx hy] at hbm
      exact Bool.false_ne_true hbm
    simp only [movementPerform, ha]
    rw [if_neg (by simp [hib]), if_neg (by simp [hwalk]),
      if_neg (by simp [hblock])]
  · intro en aeid dx dy a ha hdead
    have hnone : en.game_map.get_actor_at_location (a.x + dx)
        (a.y + dy) = none := by
      apply get_actor_at_none
      intro t ht hc
      have hm := actorsList_mem en.game_map t ht
      have hde := hdead (Entity.actor t) hm.1 hc.1 hc.2
      rw [show (Entity.actor t).alive = t.is_alive from rfl, hm.2] at hde
      exact Bool.false_ne_true hde.symm
    simp only [meleePerform, ha, hnone]

/-- Witness for C9: in the concrete two-actor world, writing hp -2
(clamped to 0) to the living monster of eid 1 leaves every eid-1 actor
object of the resulting engine a corpse. -/
theorem C9_death_invariant_witness :
    dieEngine.findActor 1 = some dyingActor ∧
    dyingActor.fighter.clamped (-2) = 0 ∧
    dyingActor.ai.isSome = true ∧
    (dieEngine.set_hp 1 (-2)).DeadAt 1 := by
  refine ⟨rfl, by decide, rfl, ?_⟩
  exact C9_death_invariant.1 dieEngine 1 dyingActor (-2) rfl (by decide)
    rfl

end Rogue
